import Mathlib

/-!
# Verification of the KoBoToolbox pendency-reconciliation core

Shallow embedding of the data-transformation core of `streamlit_kobo_app.py`:
the paginated fetcher (`baixar_dados_kobo`), the revisit aggregator
(`processar_revisitas`), the master deduplicator and consolidator
(`processar_pendencias`), and the address-label builder
(`criar_label_endereco`).

Modelling conventions:
* A pandas cell is a `Cell`: missing (`na`, covering `NaN`/`None`/`NaT`),
  a boolean, an integer, a string, or a parsed timestamp `t v` (a
  timezone-aware instant abstracted as a `Nat`; `Cell.t v` stands for a
  submission-time string that `dateutil.parser.parse` parses to instant `v`,
  while `Cell.s v` in a `_submission_time` position stands for a string the
  parser rejects).
* A data-frame row is an association list from column name to `Cell`
  (`Row.get` returns the first binding, `Cell.na` when absent — pandas
  yields `NaN` for a fetched submission that lacks a key).  A `DF` carries
  the column list (`json_normalize` uses the union of keys) and the rows.
* Fallible code (`raise`, `KeyError` from indexing a missing column,
  `dateutil` parse failures) is modelled with `Except String`.
-/

set_option maxRecDepth 40000

namespace Kobo

/-- One pandas cell. -/
inductive Cell where
  | na : Cell
  | b (v : Bool) : Cell
  | n (v : Int) : Cell
  | s (v : String) : Cell
  | t (v : Nat) : Cell
deriving DecidableEq, Repr

/-- A data-frame row: association list from column name to cell. -/
abbrev Row := List (String × Cell)

/-- Reading a cell of a row: first binding wins, missing keys read as `NaN`. -/
def rowGet (r : Row) (c : String) : Cell :=
  match r.find? (fun kv => decide (kv.1 = c)) with
  | some kv => kv.2
  | none => Cell.na

/-- A data frame: column names plus rows. -/
structure DF where
  cols : List String
  rows : List Row
deriving DecidableEq, Repr

/-- Well-formed frame: every row binding names a declared column (true of
every frame produced by `json_normalize`). -/
def DF.Wf (df : DF) : Prop :=
  ∀ r ∈ df.rows, ∀ kv ∈ r, kv.1 ∈ df.cols

instance (df : DF) : Decidable df.Wf := by
  unfold DF.Wf; infer_instance

/-- The `campos` field-name configuration of a project (a Python dict). -/
abbrev Campos := List (String × String)

/-- `campos.get(k, dflt)`. -/
def Campos.get (cs : Campos) (k dflt : String) : String :=
  match cs.find? (fun kv => decide (kv.1 = k)) with
  | some kv => kv.2
  | none => dflt

/-- `str(cell)` / `.astype(str)`: Python string rendering of a cell
(`str(nan) = "nan"`; the exact rendering of timestamps and numbers is
abstracted, only strings themselves are rendered exactly). -/
def cellStr : Cell → String
  | Cell.na => "nan"
  | Cell.s v => v
  | Cell.b true => "True"
  | Cell.b false => "False"
  | Cell.n v => toString v
  | Cell.t v => "ts-" ++ toString v

/-- `STATUS_FINALIZADOS = {"01", "04", "05"}` (line 42). -/
def STATUS_FINALIZADOS : List String := ["01", "04", "05"]

/-- Python `str.lower()`, character by character (a computable rendering of
`String.toLower`, whose library implementation does not reduce in the
kernel). -/
def strLower (s : String) : String := ⟨s.data.map Char.toLower⟩

/-- Python `str.strip()`: drop whitespace from both ends. -/
def strTrim (s : String) : String :=
  ⟨((s.data.dropWhile Char.isWhitespace).reverse.dropWhile Char.isWhitespace).reverse⟩

/-- Rank used to compare cells of different kinds (pandas would raise on
genuinely mixed-type comparisons; the claims never exercise them). `na` is
greatest, matching `na_position="last"` of ascending sorts and the
NaN-skipping of `max` aggregation. -/
def Cell.rank : Cell → Nat
  | Cell.b _ => 0
  | Cell.n _ => 1
  | Cell.s _ => 2
  | Cell.t _ => 3
  | Cell.na => 4

/-- Cell comparison: within a kind the natural order, across kinds by rank,
`na` last. -/
def cellLe : Cell → Cell → Bool
  | Cell.b a, Cell.b c => !a || c
  | Cell.n a, Cell.n c => decide (a ≤ c)
  | Cell.s a, Cell.s c => decide (a ≤ c)
  | Cell.t a, Cell.t c => decide (a ≤ c)
  | Cell.na, Cell.na => true
  | x, y => decide (x.rank < y.rank)

/-- Pandas `max` aggregation over a group: maximum of the non-missing
cells, `NaN` when the group has no non-missing cell. -/
def aggMax (cs : List Cell) : Cell :=
  cs.foldl
    (fun acc c =>
      match acc, c with
      | Cell.na, c => c
      | acc, Cell.na => acc
      | acc, c => if cellLe acc c then c else acc)
    Cell.na

/-- The submission-time parsing lambda of lines 324-329 / 460-465:
`dtparser.parse(s).astimezone(utc) if pd.notna(s) else pd.NaT`.
`dtparser.parse` raises on a non-missing value it cannot parse (the
surrounding `pd.to_datetime(..., errors="coerce")` only converts the
already-parsed results, so it never sees the failure).  `Cell.t v` stands
for a parseable time string, any other non-missing cell for an unparseable
one. -/
def rowParseOk (r : Row) : Bool :=
  match rowGet r "_submission_time" with
  | Cell.na => true
  | Cell.t _ => true
  | _ => false

/-- The instant a (parseable-or-missing) submission-time cell denotes. -/
def parsedCell : Cell → Cell
  | Cell.t v => Cell.t v
  | _ => Cell.na

/-- `df["_submission_dt"] = pd.to_datetime(df["_submission_time"].apply(...))`:
elementwise parse, raising at the first unparseable value (Python `apply`
evaluates left to right), otherwise adding the parsed column. -/
def addSubmissionDt (rows : List Row) : Except String (List Row) :=
  match rows.find? (fun r => !rowParseOk r) with
  | some r => Except.error ("Erro ao processar timestamp: " ++ cellStr (rowGet r "_submission_time"))
  | none => Except.ok (rows.map (fun r => ("_submission_dt", parsedCell (rowGet r "_submission_time")) :: r))

/-- Row order used by `sort_values("_submission_dt")`: ascending parsed
timestamp, missing values last (`na_position="last"`). -/
def dtLe (a b : Row) : Prop :=
  cellLe (rowGet a "_submission_dt") (rowGet b "_submission_dt") = true

instance : DecidableRel dtLe := fun a b => by unfold dtLe; infer_instance

/-- `df.sort_values("_submission_dt")` (the tie order among equal
timestamps is not fixed by pandas' default quicksort and is irrelevant to
every property below). -/
def sortByDt (rows : List Row) : List Row :=
  List.insertionSort dtLe rows

/-- `df.drop_duplicates(subset=[key], keep="last")`: keep each row that has
no later occurrence of its key value (pandas treats `NaN` keys as equal
duplicates). -/
def dropDupLast (key : String) : List Row → List Row
  | [] => []
  | r :: rest =>
      if rest.any (fun q => decide (rowGet q key = rowGet r key)) then dropDupLast key rest
      else r :: dropDupLast key rest

/-- Per-row status test of lines 334-339:
`df[campo_status].astype(str).str.lower().isin(STATUS_FINALIZADOS)`. -/
def statusFin (campoStatus : String) (r : Row) : Bool :=
  decide (strLower (cellStr (rowGet r campoStatus)) ∈ STATUS_FINALIZADOS)

/-- The column-rename map applied at lines 355-359.  The Python dict
literal `{"_finalizado": "finalizado", "_submission_dt": "ultima_revisita",
campo_tentativa: "tentativas"}` lets a pathological `campo_tentativa`
overwrite one of the first two entries (last duplicate key wins). -/
def renameAgg (campoTentativa c : String) : String :=
  if c = campoTentativa then "tentativas"
  else if c = "_finalizado" then "finalizado"
  else if c = "_submission_dt" then "ultima_revisita"
  else c

/-- Column list of the revisit frame after the `_submission_dt` assignment
of lines 323-331 (both branches create the column). -/
def colsDtOf (dfRev : DF) : List String :=
  if "_submission_dt" ∈ dfRev.cols then dfRev.cols else dfRev.cols ++ ["_submission_dt"]

/-- Column list after the `_finalizado` assignment of line 334. -/
def colsFinOf (dfRev : DF) : List String :=
  if "_finalizado" ∈ colsDtOf dfRev then colsDtOf dfRev else colsDtOf dfRev ++ ["_finalizado"]

/-- The names aggregated by the `agregacao` dict of lines 341-348 (a
repeated dict key stays one entry). -/
def aggNamesOf (dfRev : DF) (campos : Campos) : List String :=
  let campoTentativa := campos.get "tentativa_n" "tentativa_n"
  ["_finalizado", "_submission_dt"] ++
    (if campoTentativa ∈ colsFinOf dfRev ∧
        campoTentativa ∉ (["_finalizado", "_submission_dt"] : List String)
     then [campoTentativa] else [])

/-- `processar_revisitas` (lines 313-362): consolidate revisits per
household.  Empty input short-circuits to the fixed four-column empty frame;
otherwise parse timestamps, compute `_finalizado`, and `groupby
"household_id"` aggregating with `max`.  Indexing a missing status column
or grouping on a missing `household_id` column raises `KeyError`. -/
def processar_revisitas (dfRev : DF) (campos : Campos) : Except String DF :=
  if dfRev.rows = [] then
    Except.ok ⟨["household_id", "finalizado", "ultima_revisita", "tentativas"], []⟩
  else
    -- lines 323-331: both branches give the frame a `_submission_dt` column
    (if "_submission_time" ∈ dfRev.cols then addSubmissionDt dfRev.rows
     else Except.ok (dfRev.rows.map (fun r => ("_submission_dt", Cell.na) :: r))).bind
    (fun rows1 =>
      let campoStatus := campos.get "status_revisita" "info_gerais/status"
      if campoStatus ∉ colsDtOf dfRev then
        Except.error ("KeyError: '" ++ campoStatus ++ "'")
      else
        let rows2 := rows1.map (fun r => ("_finalizado", Cell.b (statusFin campoStatus r)) :: r)
        if "household_id" ∉ colsFinOf dfRev then
          Except.error "KeyError: 'household_id'"
        else
          let campoTentativa := campos.get "tentativa_n" "tentativa_n"
          let keys := (rows2.map (fun r => rowGet r "household_id")).dedup
          let aggRow := fun (k : Cell) =>
            let grp := rows2.filter (fun r => decide (rowGet r "household_id" = k))
            ("household_id", k) ::
              (aggNamesOf dfRev campos).map
                (fun c => (renameAgg campoTentativa c, aggMax (grp.map (fun r => rowGet r c))))
          Except.ok ⟨"household_id" :: (aggNamesOf dfRev campos).map (renameAgg campoTentativa),
            keys.map aggRow⟩)

/-- `criar_label_endereco` (lines 364-377).  `cols` is `row.index`, the
column list of the frame `apply` is running over. -/
def criar_label_endereco (cols : List String) (row : Row) (campos : Campos) : String :=
  let idx := cellStr (rowGet row "_index_sel")
  let partes := (["endereco", "numero", "modificador", "complemento"] : List String).foldl
    (fun acc campoNome =>
      let campo := campos.get campoNome ""
      if campo ≠ "" ∧ campo ∈ cols then
        let valor := rowGet row campo
        if valor ≠ Cell.na ∧ strTrim (cellStr valor) ≠ "" then acc ++ [cellStr valor] else acc
      else acc) []
  let enderecoCompleto := String.intercalate ", " partes
  if enderecoCompleto ≠ "" then idx ++ " — " ++ enderecoCompleto else idx

/-! ## The paginated fetcher (lines 261-311) -/

/-- One server response in the pagination loop of `baixar_dados_kobo`:
a page of results with or without a `next` cursor, a non-success HTTP
response, or a timeout / transport-level exception. -/
inductive PageResult where
  | ok (results : List Row) (next : Bool) : PageResult
  | httpError (status : Nat) (text : String) : PageResult
  | exn (msg : String) : PageResult
deriving DecidableEq, Repr

/-- The `while True` download loop (lines 276-297).  A non-success status
raises `RuntimeError(f"Erro HTTP {status}: {text}")`, which the enclosing
`except` rewraps as `Erro ao baixar dados: ...`; a timeout or transport
exception is rewrapped the same way.  The loop stops at the first page
without a `next` cursor. -/
def fetchPages (acc : List Row) : List PageResult → Except String (List Row)
  | [] => Except.ok acc
  | PageResult.httpError st txt :: _ =>
      Except.error ("Erro ao baixar dados: Erro HTTP " ++ toString st ++ ": " ++ txt)
  | PageResult.exn m :: _ =>
      Except.error ("Erro ao baixar dados: " ++ m)
  | PageResult.ok results next :: rest =>
      if next then fetchPages (acc ++ results) rest else Except.ok (acc ++ results)

/-- Column set of `pd.json_normalize`: union of the submissions' keys in
order of first appearance. -/
def unionKeys (rows : List Row) : List String :=
  (rows.foldl (fun acc r => acc ++ r.map (fun kv => kv.1)) []).dedup

/-- Lines 307-309: guarantee the `_id`, `_uuid`, `_submission_time`
columns, filling missing ones with `None`. -/
def ensureBaseCols (df : DF) : DF :=
  (["_id", "_uuid", "_submission_time"] : List String).foldl
    (fun d c =>
      if c ∈ d.cols then d
      else ⟨d.cols ++ [c], d.rows.map (fun r => r ++ [(c, Cell.na)])⟩) df

/-- `baixar_dados_kobo` (lines 261-311), as a function of the sequence of
server responses. -/
def baixar_dados_kobo (pages : List PageResult) : Except String DF :=
  (fetchPages [] pages).map
    (fun resultados =>
      ensureBaseCols (if resultados = [] then ⟨[], []⟩ else ⟨unionKeys resultados, resultados⟩))

/-! ## Master deduplication and consolidation (`processar_pendencias`, lines 423-541) -/

/-- Lines 459-468: parse and sort by submission time when the column
exists, then `drop_duplicates(subset=[campo_household_id], keep="last")`. -/
def dedupMaster (campos : Campos) (dfMaster : DF) : Except String DF :=
  let campoHouseholdId := campos.get "household_id" "household_id"
  (if "_submission_time" ∈ dfMaster.cols then
      (addSubmissionDt dfMaster.rows).map sortByDt
    else Except.ok dfMaster.rows).map
  (fun rows1 =>
    let cols1 :=
      if "_submission_time" ∈ dfMaster.cols then
        (if "_submission_dt" ∈ dfMaster.cols then dfMaster.cols else dfMaster.cols ++ ["_submission_dt"])
      else dfMaster.cols
    ⟨cols1, dropDupLast campoHouseholdId rows1⟩)

/-- Lines 470-475: count and remove the rows whose master status is the
terminal code `"01"`; when the status column is absent, skip the step with
a zero count. -/
def removeFirstVisitComplete (campos : Campos) (df : DF) : DF × Nat :=
  let campoStatusMaster := campos.get "status_master" "info_gerais/status"
  if campoStatusMaster ∈ df.cols then
    (⟨df.cols, df.rows.filter (fun r => decide (rowGet r campoStatusMaster ≠ Cell.s "01"))⟩,
     (df.rows.filter (fun r => decide (rowGet r campoStatusMaster = Cell.s "01"))).length)
  else (df, 0)

/-- The fixed list of address component keys of lines 481-482. -/
def addressKeys : List String :=
  ["censo", "subsetor", "tipo_imovel", "tipo_logradouro", "endereco",
   "numero", "modificador", "complemento", "referencia"]

/-- Line 478: the index column is `_index` when present and somewhere
non-missing, else `_id`. -/
def idxColOf (df : DF) : String :=
  if "_index" ∈ df.cols ∧ df.rows.any (fun r => decide (rowGet r "_index" ≠ Cell.na))
  then "_index" else "_id"

/-- Lines 480-485: the selected columns of interest. -/
def colunasOf (campos : Campos) (df : DF) : List String :=
  [campos.get "household_id" "household_id", idxColOf df] ++
    addressKeys.filterMap (fun campo =>
      let cc := campos.get campo ("info_gerais/" ++ campo)
      if cc ∈ df.cols then some cc else none)

/-- The rename of the index column to `_index_sel` (line 488), applied to a
row's bindings. -/
def renameRow (idxCol : String) (r : Row) : Row :=
  r.map (fun kv => ((if kv.1 = idxCol then "_index_sel" else kv.1), kv.2))

def selectBase (campos : Campos) (df : DF) : DF :=
  ⟨(colunasOf campos df).map (fun c => if c = idxColOf df then "_index_sel" else c),
   df.rows.map (renameRow (idxColOf df))⟩

/-- `df_base.merge(df_revisitas_agregado, how="left", left_on=campo_household_id,
right_on="household_id")` (lines 490-495): each base row paired with its
matching aggregated rows, kept alone (right columns `NaN`) when unmatched.
Pandas matches `NaN` keys to `NaN` keys. -/
def mergeLeft (base right : DF) (leftKey : String) : DF :=
  ⟨base.cols ++ right.cols.filter (fun c => decide (c ∉ base.cols)),
   base.rows.flatMap (fun lr =>
     let ms := right.rows.filter (fun rr => decide (rowGet rr "household_id" = rowGet lr leftKey))
     if ms = [] then [lr] else ms.map (fun rr => lr ++ rr))⟩

/-- `fillna(False).astype(bool)` on the merged `finalizado` column
(line 497): missing becomes `False`, otherwise Python truthiness. -/
def cellToBool : Cell → Bool
  | Cell.na => false
  | Cell.b v => v
  | Cell.s v => decide (v ≠ "")
  | Cell.n v => decide (v ≠ 0)
  | Cell.t _ => true

/-- Lines 497-500: replace `finalizado` by its `fillna(False).astype(bool)`
version and add the derived `status_consolidado` classification. -/
def consRow (r : Row) : Row :=
  let fin := cellToBool (rowGet r "finalizado")
  ("status_consolidado", Cell.s (if fin then "Concluído" else "Aberto")) ::
    ("finalizado", Cell.b fin) :: r

/-- Lines 449-500 of `processar_pendencias`: validate the household-id
field, aggregate the revisits, deduplicate the master, drop first-visit
completions, select and rename, left-join, and classify each row
(`status_consolidado` of `"Concluído"`/`"Aberto"`).  The extra check that
the join key labels exactly one base column mirrors the error pandas
raises from `merge` when `left_on` is missing or duplicated. -/
def consolidar (campos : Campos) (dfMaster dfRev : DF) : Except String DF :=
  let campoHouseholdId := campos.get "household_id" "household_id"
  if campoHouseholdId ∉ dfMaster.cols then
    Except.error ("Campo '" ++ campoHouseholdId ++ "' não encontrado no formulário Master")
  else
    (processar_revisitas dfRev campos).bind (fun dfAgregado =>
      (dedupMaster campos dfMaster).bind (fun dfm1 =>
        let dfm2 := (removeFirstVisitComplete campos dfm1).1
        let dfBase := selectBase campos dfm2
        if dfBase.cols.count campoHouseholdId ≠ 1 then
          Except.error ("KeyError: '" ++ campoHouseholdId ++ "'")
        else
          let merged := mergeLeft dfBase dfAgregado campoHouseholdId
          Except.ok ⟨merged.cols ++ ["status_consolidado"], merged.rows.map consRow⟩))

/-- The five statistics of lines 518-524. -/
structure Stats where
  total_master : Nat
  primeira_completa : Nat
  abertos : Nat
  concluidos_revisita : Nat
  total_revisitas : Nat
deriving DecidableEq, Repr

/-- Abstract rendering of `strftime("%Y-%m-%d %H:%M:%S")` on a parsed
instant. -/
def fmtTs (v : Nat) : String := "dt " ++ toString v

/-- Line 508-512: `pd.to_datetime(col).dt.strftime(...)` formats parsed
instants and leaves `NaT` missing. -/
def fmtUltima : Cell → Cell
  | Cell.t v => Cell.s (fmtTs v)
  | Cell.na => Cell.na
  | c => c

/-- Lines 449-541 of `processar_pendencias` after the downloads: the
consolidated classification, the filtered pending frame with its derived
`name`, `label` and formatted `ultima_revisita` columns, and the
statistics. -/
def processar_core (campos : Campos) (dfMaster dfRev : DF) : Except String (DF × Stats) :=
  (consolidar campos dfMaster dfRev).map (fun dfConsolidado =>
    let pendRows0 := dfConsolidado.rows.filter
      (fun r => decide (rowGet r "status_consolidado" = Cell.s "Aberto"))
    let colsName := dfConsolidado.cols ++ ["name"]
    let pendCols := colsName ++ ["label"]
    let pendRows := pendRows0.map (fun r =>
      let r1 := ("name", Cell.s (cellStr (rowGet r "_index_sel"))) :: r
      let r2 := ("label", Cell.s (criar_label_endereco colsName r1 campos)) :: r1
      if "ultima_revisita" ∈ pendCols then
        ("ultima_revisita", fmtUltima (rowGet r2 "ultima_revisita")) :: r2
      else r2)
    let dfm2 := (removeFirstVisitComplete campos
      (match dedupMaster campos dfMaster with
       | Except.ok d => d
       | Except.error _ => dfMaster))
    (⟨pendCols, pendRows⟩,
     { total_master := dfm2.1.rows.length + dfm2.2
       primeira_completa := dfm2.2
       abertos := pendRows0.length
       concluidos_revisita := (dfConsolidado.rows.filter
         (fun r => decide (rowGet r "status_consolidado" = Cell.s "Concluído"))).length
       total_revisitas := dfRev.rows.length }))

/-- `processar_pendencias` (lines 423-541) as a function of the two page
streams: download both forms, then process (the Excel/CSV serialization of
the pending frame carries no further logic). -/
def processar_pendencias (campos : Campos) (masterPages revisitPages : List PageResult) :
    Except String (DF × Stats) :=
  (baixar_dados_kobo masterPages).bind (fun dfMaster =>
    (baixar_dados_kobo revisitPages).bind (fun dfRev =>
      processar_core campos dfMaster dfRev))

/-! ## Basic lemmas about the row and aggregation primitives -/

@[simp] theorem rowGet_cons (k : String) (v : Cell) (r : Row) (c : String) :
    rowGet ((k, v) :: r) c = if k = c then v else rowGet r c := by
  by_cases h : k = c <;> simp [rowGet, List.find?, h]

@[simp] theorem rowGet_nil (c : String) : rowGet [] c = Cell.na := rfl

theorem aggMax_foldl_b (bs : List Bool) (a : Bool) :
    List.foldl
      (fun acc c =>
        match acc, c with
        | Cell.na, c => c
        | acc, Cell.na => acc
        | acc, c => if cellLe acc c then c else acc)
      (Cell.b a) (bs.map Cell.b) = Cell.b (a || bs.any id) := by
  induction bs generalizing a with
  | nil => simp
  | cons c cs ih =>
      simp only [List.map_cons, List.foldl_cons]
      rw [show (if cellLe (Cell.b a) (Cell.b c) = true then Cell.b c else Cell.b a)
            = Cell.b (a || c) by cases a <;> cases c <;> rfl]
      rw [ih (a || c)]
      simp [Bool.or_assoc]

/-- `max` over a nonempty group of booleans is their disjunction. -/
theorem aggMax_bools (bs : List Bool) (h : bs ≠ []) :
    aggMax (bs.map Cell.b) = Cell.b (bs.any id) := by
  cases bs with
  | nil => exact absurd rfl h
  | cons a l =>
      simp only [aggMax, List.map_cons, List.foldl_cons]
      rw [aggMax_foldl_b]
      simp

theorem filter_any (l : List Row) (p q : Row → Bool) :
    (l.filter p).any q = l.any (fun a => p a && q a) := by
  induction l with
  | nil => rfl
  | cons a l ih =>
      by_cases h : p a <;> simp [List.filter_cons, h, ih]

theorem any_map_filter (l : List Row) (p q : Row → Bool) :
    ((l.filter p).map q).any id = l.any (fun a => p a && q a) := by
  induction l with
  | nil => rfl
  | cons a l ih =>
      by_cases h : p a <;> simp [List.filter_cons, h, ih]

/-! ## Shape of a `processar_revisitas` run -/

/-- The frame a successful `processar_revisitas` run returns on a nonempty
input whose timestamp step produced the per-row parsed cells `f`. -/
def aggResult (dfRev : DF) (campos : Campos) (f : Row → Cell) : DF :=
  let campoStatus := campos.get "status_revisita" "info_gerais/status"
  let campoTentativa := campos.get "tentativa_n" "tentativa_n"
  let rows2 := (dfRev.rows.map (fun r => ("_submission_dt", f r) :: r)).map
    (fun r => ("_finalizado", Cell.b (statusFin campoStatus r)) :: r)
  let keys := (rows2.map (fun r => rowGet r "household_id")).dedup
  ⟨"household_id" :: (aggNamesOf dfRev campos).map (renameAgg campoTentativa),
   keys.map (fun k =>
     ("household_id", k) ::
       (aggNamesOf dfRev campos).map
         (fun c => (renameAgg campoTentativa c,
           aggMax ((rows2.filter (fun r => decide (rowGet r "household_id" = k))).map
             (fun r => rowGet r c)))))⟩

theorem processar_revisitas_ok_eq (dfRev : DF) (campos : Campos) (f : Row → Cell)
    (hne : dfRev.rows ≠ [])
    (hbind : (if "_submission_time" ∈ dfRev.cols then addSubmissionDt dfRev.rows
              else Except.ok (dfRev.rows.map (fun r => ("_submission_dt", Cell.na) :: r)))
        = Except.ok (dfRev.rows.map (fun r => ("_submission_dt", f r) :: r)))
    (hst : campos.get "status_revisita" "info_gerais/status" ∈ colsDtOf dfRev)
    (hhh : "household_id" ∈ colsFinOf dfRev) :
    processar_revisitas dfRev campos = Except.ok (aggResult dfRev campos f) := by
  unfold processar_revisitas
  rw [if_neg hne, hbind]
  simp only [Except.bind]
  rw [if_neg (not_not_intro hst), if_neg (not_not_intro hhh)]
  rfl

theorem processar_revisitas_err_status (dfRev : DF) (campos : Campos) (f : Row → Cell)
    (hne : dfRev.rows ≠ [])
    (hbind : (if "_submission_time" ∈ dfRev.cols then addSubmissionDt dfRev.rows
              else Except.ok (dfRev.rows.map (fun r => ("_submission_dt", Cell.na) :: r)))
        = Except.ok (dfRev.rows.map (fun r => ("_submission_dt", f r) :: r)))
    (hst : campos.get "status_revisita" "info_gerais/status" ∉ colsDtOf dfRev) :
    processar_revisitas dfRev campos =
      Except.error ("KeyError: '" ++ campos.get "status_revisita" "info_gerais/status" ++ "'") := by
  unfold processar_revisitas
  rw [if_neg hne, hbind]
  simp only [Except.bind]
  rw [if_pos hst]

theorem processar_revisitas_err_household (dfRev : DF) (campos : Campos) (f : Row → Cell)
    (hne : dfRev.rows ≠ [])
    (hbind : (if "_submission_time" ∈ dfRev.cols then addSubmissionDt dfRev.rows
              else Except.ok (dfRev.rows.map (fun r => ("_submission_dt", Cell.na) :: r)))
        = Except.ok (dfRev.rows.map (fun r => ("_submission_dt", f r) :: r)))
    (hst : campos.get "status_revisita" "info_gerais/status" ∈ colsDtOf dfRev)
    (hhh : "household_id" ∉ colsFinOf dfRev) :
    processar_revisitas dfRev campos = Except.error "KeyError: 'household_id'" := by
  unfold processar_revisitas
  rw [if_neg hne, hbind]
  simp only [Except.bind]
  rw [if_neg (not_not_intro hst), if_pos hhh]

/-- Inversion: what a successful aggregator run tells us. -/
theorem processar_revisitas_ok_inv (dfRev : DF) (campos : Campos) (out : DF)
    (hok : processar_revisitas dfRev campos = Except.ok out) :
    (dfRev.rows = [] ∧
      out = ⟨["household_id", "finalizado", "ultima_revisita", "tentativas"], []⟩) ∨
    (dfRev.rows ≠ [] ∧
      ∃ f : Row → Cell,
        (if "_submission_time" ∈ dfRev.cols then addSubmissionDt dfRev.rows
         else Except.ok (dfRev.rows.map (fun r => ("_submission_dt", Cell.na) :: r)))
          = Except.ok (dfRev.rows.map (fun r => ("_submission_dt", f r) :: r)) ∧
        campos.get "status_revisita" "info_gerais/status" ∈ colsDtOf dfRev ∧
        "household_id" ∈ colsFinOf dfRev ∧
        out = aggResult dfRev campos f) := by
  by_cases hne : dfRev.rows = []
  · left
    refine ⟨hne, ?_⟩
    unfold processar_revisitas at hok
    rw [if_pos hne] at hok
    exact (Except.ok.inj hok).symm
  · right
    refine ⟨hne, ?_⟩
    obtain ⟨f, hbind⟩ :
        ∃ f : Row → Cell,
          (if "_submission_time" ∈ dfRev.cols then addSubmissionDt dfRev.rows
           else Except.ok (dfRev.rows.map (fun r => ("_submission_dt", Cell.na) :: r)))
            = Except.ok (dfRev.rows.map (fun r => ("_submission_dt", f r) :: r)) := by
      by_cases hts : "_submission_time" ∈ dfRev.cols
      · rw [if_pos hts]
        unfold addSubmissionDt
        cases hfind : dfRev.rows.find? (fun r => !rowParseOk r) with
        | some r =>
            unfold processar_revisitas at hok
            rw [if_neg hne, if_pos hts] at hok
            unfold addSubmissionDt at hok
            rw [hfind] at hok
            simp [Except.bind] at hok
        | none =>
            exact ⟨fun r => parsedCell (rowGet r "_submission_time"), rfl⟩
      · rw [if_neg hts]
        exact ⟨fun _ => Cell.na, rfl⟩
    by_cases hst : campos.get "status_revisita" "info_gerais/status" ∈ colsDtOf dfRev
    · by_cases hhh : "household_id" ∈ colsFinOf dfRev
      · refine ⟨f, hbind, hst, hhh, ?_⟩
        rw [processar_revisitas_ok_eq dfRev campos f hne hbind hst hhh] at hok
        exact (Except.ok.inj hok).symm
      · rw [processar_revisitas_err_household dfRev campos f hne hbind hst hhh] at hok
        simp at hok
    · rw [processar_revisitas_err_status dfRev campos f hne hbind hst] at hok
      simp at hok

/-! ## Claim C1: OR-aggregation of revisit statuses -/

/-- **C1.** For every revisit dataset, every household that has at least
one submission is represented in the aggregator's output by a row whose
`finalizado` value is the logical OR, over all of that household's
submissions, of the case-insensitive membership of the status code in
`{"01","04","05"}` — in particular it is `true` as soon as one submission
has a terminal status, regardless of the statuses of the household's other
submissions.  The two extra hypotheses exclude a configuration that names
the status or attempt field after one of the aggregator's internal scratch
columns (`_submission_dt`, `_finalizado`), which the deployed
configuration never does. -/
theorem processar_revisitas_or_aggregation
    (dfRev : DF) (campos : Campos) (out : DF)
    (hok : processar_revisitas dfRev campos = Except.ok out)
    (hstatus : Campos.get campos "status_revisita" "info_gerais/status" ∉
      (["_submission_dt", "_finalizado"] : List String))
    (htent : Campos.get campos "tentativa_n" "tentativa_n" ≠ "_finalizado") :
    ∀ k ∈ dfRev.rows.map (fun r => rowGet r "household_id"),
      ∃ orow ∈ out.rows, rowGet orow "household_id" = k ∧
        rowGet orow "finalizado" =
          Cell.b (dfRev.rows.any (fun r =>
            decide (rowGet r "household_id" = k) &&
              statusFin (Campos.get campos "status_revisita" "info_gerais/status") r)) := by
  intro k hk
  have hsdt : Campos.get campos "status_revisita" "info_gerais/status" ≠ "_submission_dt" := by
    intro h; exact hstatus (by simp [h])
  rcases processar_revisitas_ok_inv dfRev campos out hok with ⟨hempty, _⟩ | ⟨hne, f, _, _, _, hout⟩
  · rw [hempty] at hk; simp at hk
  subst hout
  set cs := Campos.get campos "status_revisita" "info_gerais/status" with hcs
  set ct := Campos.get campos "tentativa_n" "tentativa_n" with hct
  -- the two scratch prepends do not change the household id or the status
  have hgethh : ∀ r : Row,
      rowGet (("_finalizado", Cell.b (statusFin cs (("_submission_dt", f r) :: r))) ::
        ("_submission_dt", f r) :: r) "household_id" = rowGet r "household_id" := by
    intro r; simp
  have hsfr : ∀ r : Row, statusFin cs (("_submission_dt", f r) :: r) = statusFin cs r := by
    intro r
    unfold statusFin
    rw [rowGet_cons, if_neg (fun h => hsdt h.symm)]
  -- rows2 as a single map over the input rows
  have hrows2 :
      ((dfRev.rows.map (fun r => ("_submission_dt", f r) :: r)).map
        (fun r => ("_finalizado", Cell.b (statusFin cs r)) :: r)) =
      dfRev.rows.map (fun r =>
        ("_finalizado", Cell.b (statusFin cs (("_submission_dt", f r) :: r))) ::
          ("_submission_dt", f r) :: r) := by
    rw [List.map_map]; rfl
  unfold aggResult
  simp only [← hcs, ← hct, hrows2]
  have hkmem : k ∈ ((dfRev.rows.map (fun r =>
      ("_finalizado", Cell.b (statusFin cs (("_submission_dt", f r) :: r))) ::
        ("_submission_dt", f r) :: r)).map (fun r => rowGet r "household_id")).dedup := by
    rw [List.mem_dedup, List.map_map]
    rcases List.mem_map.mp hk with ⟨r, hr, hrk⟩
    refine List.mem_map.mpr ⟨r, hr, ?_⟩
    simpa using hrk
  refine ⟨_, List.mem_map.mpr ⟨k, hkmem, rfl⟩, ?_, ?_⟩
  · simp
  · -- the `finalizado` binding of the aggregated row is the group OR
    have hren : renameAgg ct "_finalizado" = "finalizado" := by
      unfold renameAgg
      rw [if_neg (fun h => htent h.symm), if_pos rfl]
    unfold aggNamesOf
    simp only [← hct, List.cons_append, List.map_cons, rowGet_cons, hren]
    rw [if_pos trivial]
    have hgrp : ((dfRev.rows.map (fun r =>
        ("_finalizado", Cell.b (statusFin cs (("_submission_dt", f r) :: r))) ::
          ("_submission_dt", f r) :: r)).filter
            (fun r => decide (rowGet r "household_id" = k))) =
        (dfRev.rows.filter (fun r => decide (rowGet r "household_id" = k))).map
          (fun r => ("_finalizado", Cell.b (statusFin cs (("_submission_dt", f r) :: r))) ::
            ("_submission_dt", f r) :: r) := by
      rw [List.filter_map]
      rfl
    rw [hgrp, List.map_map]
    have hfun : ((fun r : Row => rowGet r "_finalizado") ∘
        fun r => ("_finalizado", Cell.b (statusFin cs (("_submission_dt", f r) :: r))) ::
          ("_submission_dt", f r) :: r) =
        fun r => Cell.b (statusFin cs r) := by
      funext r
      simp [Function.comp, hsfr r]
    rw [hfun]
    have hgrpne : dfRev.rows.filter (fun r => decide (rowGet r "household_id" = k)) ≠ [] := by
      rcases List.mem_map.mp hk with ⟨r, hr, hrk⟩
      intro hempty
      have hmem : r ∈ dfRev.rows.filter (fun r => decide (rowGet r "household_id" = k)) :=
        List.mem_filter.mpr ⟨hr, by simpa using hrk⟩
      rw [hempty] at hmem
      simp at hmem
    have hmapb : (dfRev.rows.filter (fun r => decide (rowGet r "household_id" = k))).map
        (fun r => Cell.b (statusFin cs r)) =
        ((dfRev.rows.filter (fun r => decide (rowGet r "household_id" = k))).map
          (statusFin cs)).map Cell.b := by
      rw [List.map_map]; rfl
    rw [hmapb, aggMax_bools _ (by simpa using hgrpne)]
    rw [if_neg (by decide : ¬("household_id" = "finalizado"))]
    congr 1
    exact any_map_filter dfRev.rows _ _

/-- A concrete revisit dataset: household `"H2"` revisited twice, statuses
`"03"` then `"04"`. -/
def dfRevW : DF :=
  ⟨["household_id", "info_gerais/status", "_submission_time"],
   [[("household_id", Cell.s "H2"), ("info_gerais/status", Cell.s "03"), ("_submission_time", Cell.t 1)],
    [("household_id", Cell.s "H2"), ("info_gerais/status", Cell.s "04"), ("_submission_time", Cell.t 2)]]⟩

/-- The aggregated frame the run produces on `dfRevW`. -/
def outW : DF :=
  ⟨["household_id", "finalizado", "ultima_revisita"],
   [[("household_id", Cell.s "H2"), ("finalizado", Cell.b true), ("ultima_revisita", Cell.t 2)]]⟩

/-- Witness for C1 at the concrete dataset `dfRevW`. -/
theorem processar_revisitas_or_aggregation_witness :
    ∃ orow ∈ outW.rows, rowGet orow "household_id" = Cell.s "H2" ∧
      rowGet orow "finalizado" =
        Cell.b (dfRevW.rows.any (fun r =>
          decide (rowGet r "household_id" = Cell.s "H2") &&
            statusFin (Campos.get [] "status_revisita" "info_gerais/status") r)) := by
  have hok : processar_revisitas dfRevW [] = Except.ok outW := by rfl
  exact processar_revisitas_or_aggregation dfRevW [] outW hok (by decide) (by decide)
    (Cell.s "H2") (by decide)

/-! ## Claim C8: a failing page aborts the whole fetch -/

theorem fetchPages_abort_http (good : List PageResult)
    (hgood : ∀ p ∈ good, ∃ rs, p = PageResult.ok rs true)
    (acc : List Row) (st : Nat) (txt : String) (rest : List PageResult) :
    fetchPages acc (good ++ PageResult.httpError st txt :: rest) =
      Except.error ("Erro ao baixar dados: Erro HTTP " ++ toString st ++ ": " ++ txt) := by
  induction good generalizing acc with
  | nil => rfl
  | cons p good ih =>
      obtain ⟨rs, rfl⟩ := hgood p (by simp)
      simp only [List.cons_append, fetchPages, if_pos]
      exact ih (fun q hq => hgood q (by simp [hq])) _

theorem fetchPages_abort_exn (good : List PageResult)
    (hgood : ∀ p ∈ good, ∃ rs, p = PageResult.ok rs true)
    (acc : List Row) (m : String) (rest : List PageResult) :
    fetchPages acc (good ++ PageResult.exn m :: rest) =
      Except.error ("Erro ao baixar dados: " ++ m) := by
  induction good generalizing acc with
  | nil => rfl
  | cons p good ih =>
      obtain ⟨rs, rfl⟩ := hgood p (by simp)
      simp only [List.cons_append, fetchPages, if_pos]
      exact ih (fun q hq => hgood q (by simp [hq])) _

/-- **C8.** However many pages have already been fetched, a page request
that returns a non-success HTTP status, times out, or fails at the
transport level makes the whole fetch return a single fatal error — the
HTTP failure message carries the status code — and no data frame (hence no
partial page results) is produced; the responses after the failing one
(`rest`) are never consulted, so no retry happens. -/
theorem baixar_dados_kobo_abort (good rest : List PageResult)
    (hgood : ∀ p ∈ good, ∃ rs, p = PageResult.ok rs true) :
    (∀ (st : Nat) (txt : String),
      baixar_dados_kobo (good ++ PageResult.httpError st txt :: rest) =
        Except.error ("Erro ao baixar dados: Erro HTTP " ++ toString st ++ ": " ++ txt)) ∧
    (∀ m : String,
      baixar_dados_kobo (good ++ PageResult.exn m :: rest) =
        Except.error ("Erro ao baixar dados: " ++ m)) := by
  constructor
  · intro st txt
    unfold baixar_dados_kobo
    rw [fetchPages_abort_http good hgood [] st txt rest]
    rfl
  · intro m
    unfold baixar_dados_kobo
    rw [fetchPages_abort_exn good hgood [] m rest]
    rfl

/-- Witness for C8 with one successful page followed by each failure kind. -/
theorem baixar_dados_kobo_abort_witness :
    baixar_dados_kobo [PageResult.ok [] true, PageResult.httpError 500 "boom"] =
      Except.error ("Erro ao baixar dados: Erro HTTP " ++ toString 500 ++ ": " ++ "boom") ∧
    baixar_dados_kobo [PageResult.ok [] true, PageResult.exn "timeout"] =
      Except.error ("Erro ao baixar dados: " ++ "timeout") :=
  ⟨(baixar_dados_kobo_abort [PageResult.ok [] true] []
      (fun p hp => ⟨[], by simpa using hp⟩)).1 500 "boom",
   (baixar_dados_kobo_abort [PageResult.ok [] true] []
      (fun p hp => ⟨[], by simpa using hp⟩)).2 "timeout"⟩

/-! ## Claim C6: tolerance of absent optional fields -/

/-- A nonempty revisit dataset whose schema lacks the status field. -/
def dfRevC6 : DF :=
  ⟨["household_id", "_submission_time"],
   [[("household_id", Cell.s "H1"), ("_submission_time", Cell.t 5)]]⟩

/-- **C6 counterexample.**  With a nonempty revisit dataset, an absent
revisit status field is *not* tolerated: `processar_revisitas` indexes the
missing column and raises, so the run fails rather than degrading to a
safe default. -/
theorem processar_revisitas_missing_status_errors :
    processar_revisitas dfRevC6 [] = Except.error "KeyError: 'info_gerais/status'" := by
  rfl

/-- **C6 (amended).**  An absent attempt-counter field is tolerated — the
aggregated frame simply omits the `tentativas` column — and an absent
*Master* status field is tolerated — the first-visit-complete removal is
skipped with a zero count.  (An absent *Revisit* status field, by
contrast, aborts the run: see the counterexample.) -/
theorem optional_fields_tolerated :
    (∀ (dfRev : DF) (campos : Campos) (out : DF),
      dfRev.rows ≠ [] →
      processar_revisitas dfRev campos = Except.ok out →
      Campos.get campos "tentativa_n" "tentativa_n" ∉ dfRev.cols →
      Campos.get campos "tentativa_n" "tentativa_n" ∉
        (["_submission_dt", "_finalizado"] : List String) →
      "tentativas" ∉ out.cols) ∧
    (∀ (campos : Campos) (df : DF),
      Campos.get campos "status_master" "info_gerais/status" ∉ df.cols →
      removeFirstVisitComplete campos df = (df, 0)) := by
  constructor
  · intro dfRev campos out hne hok hnotcol hnotscratch
    set ct := Campos.get campos "tentativa_n" "tentativa_n" with hct
    have hctdt : ct ≠ "_submission_dt" := fun h => hnotscratch (by simp [h])
    have hctfin : ct ≠ "_finalizado" := fun h => hnotscratch (by simp [h])
    rcases processar_revisitas_ok_inv dfRev campos out hok with ⟨h, _⟩ | ⟨_, f, _, _, _, hout⟩
    · exact absurd h hne
    subst hout
    have hnotDt : ct ∉ colsDtOf dfRev := by
      unfold colsDtOf
      by_cases h1 : "_submission_dt" ∈ dfRev.cols
      · rw [if_pos h1]; exact hnotcol
      · rw [if_neg h1]
        intro hmem
        rcases List.mem_append.mp hmem with h | h
        · exact hnotcol h
        · simp at h; exact hctdt h
    have hnotFin : ct ∉ colsFinOf dfRev := by
      unfold colsFinOf
      by_cases h2 : "_finalizado" ∈ colsDtOf dfRev
      · rw [if_pos h2]; exact hnotDt
      · rw [if_neg h2]
        intro hmem
        rcases List.mem_append.mp hmem with h | h
        · exact hnotDt h
        · simp at h; exact hctfin h
    have haggN : aggNamesOf dfRev campos = ["_finalizado", "_submission_dt"] := by
      simp only [aggNamesOf]
      rw [if_neg (fun h : campos.get "tentativa_n" "tentativa_n" ∈ colsFinOf dfRev ∧
          campos.get "tentativa_n" "tentativa_n" ∉ (["_finalizado", "_submission_dt"] : List String) =>
        hnotFin (by rw [hct]; exact h.1))]
      rfl
    show "tentativas" ∉ (aggResult dfRev campos f).cols
    unfold aggResult
    simp only [haggN, ← hct]
    have h1 : renameAgg ct "_finalizado" = "finalizado" := by
      unfold renameAgg
      rw [if_neg (fun h => hctfin h.symm), if_pos rfl]
    have h2 : renameAgg ct "_submission_dt" = "ultima_revisita" := by
      unfold renameAgg
      rw [if_neg (fun h => hctdt h.symm), if_neg (by decide), if_pos rfl]
    simp [h1, h2]
  · intro campos df h
    unfold removeFirstVisitComplete
    rw [if_neg h]

/-- Witness for the amended C6: the attempt field is absent from `dfRevW`,
and the master status field from a frame with only a household column. -/
theorem optional_fields_tolerated_witness :
    "tentativas" ∉ outW.cols ∧
      removeFirstVisitComplete [] ⟨["household_id"], []⟩ = (⟨["household_id"], []⟩, 0) := by
  have hok : processar_revisitas dfRevW [] = Except.ok outW := by rfl
  exact ⟨optional_fields_tolerated.1 dfRevW [] outW (by decide) hok (by decide) (by decide),
    optional_fields_tolerated.2 [] ⟨["household_id"], []⟩ (by decide)⟩

/-! ## Claim C5: the address label -/

/-- Modelled from the spec (amended wording): the label is the row index,
an em-dash separator, and the non-empty values of the configured address
fields street name, number, modifier and complement — in that order —
joined with `", "`; the index alone when every component is empty.  (The
street-type field does not participate: see the counterexample.) -/
def labelSpec (cols : List String) (row : Row) (campos : Campos) : String :=
  let idx := cellStr (rowGet row "_index_sel")
  let parts := (["endereco", "numero", "modificador", "complemento"] : List String).filterMap
    (fun nm =>
      let campo := campos.get nm ""
      if campo ≠ "" ∧ campo ∈ cols ∧ rowGet row campo ≠ Cell.na ∧
          strTrim (cellStr (rowGet row campo)) ≠ ""
      then some (cellStr (rowGet row campo)) else none)
  if parts = [] then idx else idx ++ " — " ++ String.intercalate ", " parts

theorem label_foldl_filterMap (cols : List String) (row : Row) (campos : Campos)
    (names : List String) (acc : List String) :
    names.foldl
      (fun acc campoNome =>
        let campo := campos.get campoNome ""
        if campo ≠ "" ∧ campo ∈ cols then
          let valor := rowGet row campo
          if valor ≠ Cell.na ∧ strTrim (cellStr valor) ≠ "" then acc ++ [cellStr valor] else acc
        else acc) acc =
    acc ++ names.filterMap
      (fun nm =>
        let campo := campos.get nm ""
        if campo ≠ "" ∧ campo ∈ cols ∧ rowGet row campo ≠ Cell.na ∧
            strTrim (cellStr (rowGet row campo)) ≠ ""
        then some (cellStr (rowGet row campo)) else none) := by
  induction names generalizing acc with
  | nil => simp
  | cons nm names ih =>
      simp only [List.foldl_cons, List.filterMap_cons]
      by_cases h1 : campos.get nm "" ≠ "" ∧ campos.get nm "" ∈ cols
      · by_cases h2 : rowGet row (campos.get nm "") ≠ Cell.na ∧
            strTrim (cellStr (rowGet row (campos.get nm ""))) ≠ ""
        · rw [if_pos h1, if_pos h2, if_pos ⟨h1.1, h1.2, h2.1, h2.2⟩, ih]
          simp
        · rw [if_pos h1, if_neg h2, if_neg (fun hc => h2 ⟨hc.2.2.1, hc.2.2.2⟩), ih]
      · rw [if_neg h1, if_neg (fun hc => h1 ⟨hc.1, hc.2.1⟩), ih]

theorem intercalate_go_data (s : String) (as : List String) (acc : String) :
    ∃ tail, (String.intercalate.go acc s as).data = acc.data ++ tail := by
  induction as generalizing acc with
  | nil => exact ⟨[], by simp [String.intercalate.go]⟩
  | cons a as ih =>
      obtain ⟨t, ht⟩ := ih (acc ++ s ++ a)
      refine ⟨s.data ++ a.data ++ t, ?_⟩
      show (String.intercalate.go (acc ++ s ++ a) s as).data = _
      rw [ht]
      simp [String.append]

theorem intercalate_ne_empty (s p : String) (rest : List String) (hp : p ≠ "") :
    String.intercalate s (p :: rest) ≠ "" := by
  show String.intercalate.go p s rest ≠ ""
  obtain ⟨t, ht⟩ := intercalate_go_data s rest p
  intro h
  rw [h] at ht
  have hdata : p.data = [] := by
    cases hd : p.data with
    | nil => rfl
    | cons c cs =>
        rw [hd] at ht
        exact absurd ht.symm (by simp)
  apply hp
  cases p with
  | mk d =>
      have hd : d = [] := hdata
      rw [hd]

theorem label_part_ne_empty (cols : List String) (row : Row) (campos : Campos)
    (x : String)
    (hx : x ∈ (["endereco", "numero", "modificador", "complemento"] : List String).filterMap
      (fun nm =>
        let campo := campos.get nm ""
        if campo ≠ "" ∧ campo ∈ cols ∧ rowGet row campo ≠ Cell.na ∧
            strTrim (cellStr (rowGet row campo)) ≠ ""
        then some (cellStr (rowGet row campo)) else none)) :
    x ≠ "" := by
  rcases List.mem_filterMap.mp hx with ⟨nm, _, hnm⟩
  simp only [] at hnm
  split at hnm
  · rename_i hcond
    intro hxe
    apply hcond.2.2.2
    have hxv : x = cellStr (rowGet row (campos.get nm "")) := (Option.some.inj hnm).symm
    rw [← hxv, hxe]
    rfl
  · exact absurd hnm (by simp)

/-- **C5 (amended).**  The pending-row label is the row index followed,
after an em-dash, by the non-empty values of the configured street-name,
number, modifier and complement fields, in that order, joined by `", "` —
the index alone when all of them are empty.  (The claim's street-type
component is not part of the label.) -/
theorem criar_label_endereco_spec (cols : List String) (row : Row) (campos : Campos) :
    criar_label_endereco cols row campos = labelSpec cols row campos := by
  simp only [criar_label_endereco, labelSpec]
  rw [label_foldl_filterMap cols row campos _ []]
  simp only [List.nil_append]
  set parts := (["endereco", "numero", "modificador", "complemento"] : List String).filterMap
    (fun nm =>
      let campo := campos.get nm ""
      if campo ≠ "" ∧ campo ∈ cols ∧ rowGet row campo ≠ Cell.na ∧
          strTrim (cellStr (rowGet row campo)) ≠ ""
      then some (cellStr (rowGet row campo)) else none) with hparts
  cases hp : parts with
  | nil =>
      simp [String.intercalate]
  | cons p rest =>
      have hpmem : p ∈ parts := by rw [hp]; exact List.mem_cons_self p rest
      rw [hparts] at hpmem
      have hpne : p ≠ "" := label_part_ne_empty cols row campos p hpmem
      rw [if_pos (intercalate_ne_empty ", " p rest hpne), if_neg (by simp)]

/-- The configuration and row of the counterexample: a configured,
non-empty street-type value `"Rua"` next to street name `"A"`. -/
def camposC5 : Campos :=
  [("tipo_logradouro", "tl"), ("endereco", "end"), ("numero", "num")]

def rowC5 : Row :=
  [("_index_sel", Cell.s "7"), ("tl", Cell.s "Rua"), ("end", Cell.s "A")]

/-- **C5 counterexample.**  With street type `"Rua"` configured and
non-empty, the claim predicts the label `"7 — Rua, A"` (street type first);
the code produces `"7 — A"`, never reading the street-type field. -/
theorem criar_label_endereco_cex :
    criar_label_endereco ["_index_sel", "tl", "end", "num"] rowC5 camposC5 = "7 — A" ∧
      "7 — A" ≠ "7 — Rua, A" := by
  constructor
  · rfl
  · decide

/-! ## Order lemmas for the sort key -/

theorem cellLe_total (a b : Cell) : cellLe a b = true ∨ cellLe b a = true := by
  cases a <;> cases b <;>
    simp only [cellLe, Cell.rank, decide_eq_true_eq, Bool.or_eq_true, Bool.not_eq_true'] <;>
    first
      | omega
      | exact le_total _ _
      | simp
      | (rename_i x y; cases x <;> cases y <;> simp)

theorem cellLe_trans : ∀ {a b c : Cell},
    cellLe a b = true → cellLe b c = true → cellLe a c = true := by
  intro a b c h1 h2
  cases a <;> cases b <;> cases c <;>
    simp only [cellLe, Cell.rank, decide_eq_true_eq, Bool.or_eq_true, Bool.not_eq_true'] at h1 h2 ⊢ <;>
    first
      | rfl
      | omega
      | exact le_trans h1 h2
      | (rename_i x y z; cases x <;> cases y <;> cases z <;> simp_all)

/-- `cellLe Cell.na x` only holds at `x = Cell.na`: nothing sorts after a
missing timestamp. -/
theorem cellLe_na_left {x : Cell} (h : cellLe Cell.na x = true) : x = Cell.na := by
  cases x <;> first | rfl | simp [cellLe, Cell.rank] at h

instance : IsTotal Row dtLe :=
  ⟨fun a b => by unfold dtLe; exact cellLe_total _ _⟩

instance : IsTrans Row dtLe :=
  ⟨fun a b c h1 h2 => by unfold dtLe at h1 h2 ⊢; exact cellLe_trans h1 h2⟩

theorem sortByDt_perm (rows : List Row) : List.Perm (sortByDt rows) rows :=
  List.perm_insertionSort dtLe rows

theorem sortByDt_sorted (rows : List Row) : List.Pairwise dtLe (sortByDt rows) :=
  List.sorted_insertionSort dtLe rows

/-! ## Lemmas about `drop_duplicates(keep="last")` -/

theorem dropDupLast_sublist (key : String) (rows : List Row) :
    List.Sublist (dropDupLast key rows) rows := by
  induction rows with
  | nil => exact List.Sublist.refl []
  | cons r rest ih =>
      unfold dropDupLast
      split
      · exact List.Sublist.cons r ih
      · exact List.Sublist.cons₂ r ih

/-- Every kept row is an occurrence with no later row of the same key. -/
theorem dropDupLast_split (key : String) (rows : List Row) :
    ∀ r ∈ dropDupLast key rows, ∃ pre post, rows = pre ++ r :: post ∧
      ∀ q ∈ post, rowGet q key ≠ rowGet r key := by
  induction rows with
  | nil => intro r hr; simp [dropDupLast] at hr
  | cons x rest ih =>
      intro r hr
      unfold dropDupLast at hr
      split at hr
      · obtain ⟨pre, post, heq, hpost⟩ := ih r hr
        exact ⟨x :: pre, post, by rw [heq]; rfl, hpost⟩
      · rename_i hnone
        rcases List.mem_cons.mp hr with hr | hr
        · subst hr
          refine ⟨[], rest, rfl, fun q hq hqk => ?_⟩
          exact hnone (List.any_eq_true.mpr ⟨q, hq, by simpa using hqk⟩)
        · obtain ⟨pre, post, heq, hpost⟩ := ih r hr
          exact ⟨x :: pre, post, by rw [heq]; rfl, hpost⟩

/-- The kept rows have pairwise distinct keys. -/
theorem dropDupLast_pairwise (key : String) (rows : List Row) :
    (dropDupLast key rows).Pairwise (fun a b => rowGet a key ≠ rowGet b key) := by
  induction rows with
  | nil => exact List.Pairwise.nil
  | cons x rest ih =>
      unfold dropDupLast
      split
      · exact ih
      · rename_i hnone
        refine List.Pairwise.cons (fun b hb hxb => ?_) ih
        have hbr : b ∈ rest := (dropDupLast_sublist key rest).mem hb
        exact hnone (List.any_eq_true.mpr ⟨b, hbr, by simp [hxb]⟩)

/-! ## Row and merge lemmas -/

theorem rowGet_eq_na (r : Row) (c : String) (h : ∀ kv ∈ r, kv.1 ≠ c) :
    rowGet r c = Cell.na := by
  unfold rowGet
  rw [List.find?_eq_none.mpr (fun kv hkv => by simpa using h kv hkv)]

theorem rowGet_append_left (l1 l2 : Row) (c : String) (kv : Prod String Cell)
    (h : l1.find? (fun kv => decide (kv.1 = c)) = some kv) :
    rowGet (l1 ++ l2) c = kv.2 := by
  unfold rowGet
  rw [List.find?_append, h]
  rfl

theorem rowGet_append_right (l1 l2 : Row) (c : String)
    (h : l1.find? (fun kv => decide (kv.1 = c)) = none) :
    rowGet (l1 ++ l2) c = rowGet l2 c := by
  unfold rowGet
  rw [List.find?_append, h]
  rfl

/-- When a row has no binding for `c`, its `find?` is `none`. -/
theorem find?_eq_none_of_keys (r : Row) (c : String) (h : ∀ kv ∈ r, kv.1 ≠ c) :
    r.find? (fun kv => decide (kv.1 = c)) = none :=
  List.find?_eq_none.mpr (fun kv hkv => by simpa using h kv hkv)

/-- The single aggregated row matched to a base row by the left join, if
any. -/
def matchRow (right : DF) (leftKey : String) (lr : Row) : Row :=
  match right.rows.filter (fun rr => decide (rowGet rr "household_id" = rowGet lr leftKey)) with
  | [] => lr
  | rr :: _ => lr ++ rr

theorem flatMap_eq_map (f : Row → List Row) (g : Row → Row) (l : List Row)
    (h : ∀ x ∈ l, f x = [g x]) : l.flatMap f = l.map g := by
  induction l with
  | nil => rfl
  | cons a l ih =>
      rw [List.flatMap_cons, List.map_cons, h a (by simp), ih (fun x hx => h x (by simp [hx]))]
      rfl

theorem filter_single_of_pairwise (l : List Row) (c : Cell)
    (h : l.Pairwise (fun a b => rowGet a "household_id" ≠ rowGet b "household_id")) :
    l.filter (fun rr => decide (rowGet rr "household_id" = c)) = [] ∨
    ∃ rr, l.filter (fun rr => decide (rowGet rr "household_id" = c)) = [rr] := by
  induction l with
  | nil => exact Or.inl rfl
  | cons a l ih =>
      rcases List.pairwise_cons.mp h with ⟨ha, hl⟩
      by_cases hak : rowGet a "household_id" = c
      · right
        refine ⟨a, ?_⟩
        rw [List.filter_cons_of_pos (by simpa using hak)]
        rw [List.filter_eq_nil_iff.mpr (fun q hq => ?_)]
        intro hqk
        exact ha q hq (by rw [hak, ← (by simpa using hqk : rowGet q "household_id" = c)])
      · rw [List.filter_cons_of_neg (by simpa using hak)]
        exact ih hl

/-- With unique right keys, the left join is one output row per base
row. -/
theorem mergeLeft_rows_of_unique (base right : DF) (leftKey : String)
    (huniq : right.rows.Pairwise (fun a b => rowGet a "household_id" ≠ rowGet b "household_id")) :
    (mergeLeft base right leftKey).rows = base.rows.map (matchRow right leftKey) := by
  show base.rows.flatMap _ = _
  apply flatMap_eq_map
  intro lr _
  unfold matchRow
  rcases filter_single_of_pairwise right.rows (rowGet lr leftKey) huniq with hf | ⟨rr, hf⟩
  · rw [hf]
    simp
  · rw [hf]
    simp

/-! ## Shape of a successful consolidation -/

theorem except_map_ok {α β : Type} (f : α → β) (e : Except String α) (y : β)
    (h : e.map f = Except.ok y) : ∃ x, e = Except.ok x ∧ f x = y := by
  cases e with
  | error m => simp [Except.map] at h
  | ok x => exact ⟨x, rfl, by simpa [Except.map] using h⟩

theorem consolidar_ok_eq (campos : Campos) (dfMaster dfRev dfAgregado dfm1 : DF)
    (hkey : campos.get "household_id" "household_id" ∈ dfMaster.cols)
    (hagg : processar_revisitas dfRev campos = Except.ok dfAgregado)
    (hdm : dedupMaster campos dfMaster = Except.ok dfm1)
    (hcount : (selectBase campos (removeFirstVisitComplete campos dfm1).1).cols.count
      (campos.get "household_id" "household_id") = 1) :
    consolidar campos dfMaster dfRev =
      Except.ok ⟨(mergeLeft (selectBase campos (removeFirstVisitComplete campos dfm1).1)
          dfAgregado (campos.get "household_id" "household_id")).cols ++ ["status_consolidado"],
        (mergeLeft (selectBase campos (removeFirstVisitComplete campos dfm1).1)
          dfAgregado (campos.get "household_id" "household_id")).rows.map consRow⟩ := by
  unfold consolidar
  rw [if_neg (not_not_intro hkey), hagg]
  simp only [Except.bind]
  rw [hdm]
  simp only [Except.bind]
  rw [if_neg (not_not_intro hcount)]

theorem consolidar_ok_inv (campos : Campos) (dfMaster dfRev out : DF)
    (hok : consolidar campos dfMaster dfRev = Except.ok out) :
    ∃ dfAgregado dfm1 : DF,
      campos.get "household_id" "household_id" ∈ dfMaster.cols ∧
      processar_revisitas dfRev campos = Except.ok dfAgregado ∧
      dedupMaster campos dfMaster = Except.ok dfm1 ∧
      (selectBase campos (removeFirstVisitComplete campos dfm1).1).cols.count
        (campos.get "household_id" "household_id") = 1 ∧
      out = ⟨(mergeLeft (selectBase campos (removeFirstVisitComplete campos dfm1).1)
          dfAgregado (campos.get "household_id" "household_id")).cols ++ ["status_consolidado"],
        (mergeLeft (selectBase campos (removeFirstVisitComplete campos dfm1).1)
          dfAgregado (campos.get "household_id" "household_id")).rows.map consRow⟩ := by
  by_cases hkey : campos.get "household_id" "household_id" ∈ dfMaster.cols
  swap
  · unfold consolidar at hok
    rw [if_pos hkey] at hok
    simp at hok
  cases hagg : processar_revisitas dfRev campos with
  | error m =>
      unfold consolidar at hok
      rw [if_neg (not_not_intro hkey), hagg] at hok
      simp [Except.bind] at hok
  | ok dfAgregado =>
      cases hdm : dedupMaster campos dfMaster with
      | error m =>
          unfold consolidar at hok
          rw [if_neg (not_not_intro hkey), hagg] at hok
          simp only [Except.bind] at hok
          rw [hdm] at hok
          simp [Except.bind] at hok
      | ok dfm1 =>
          by_cases hcount : (selectBase campos (removeFirstVisitComplete campos dfm1).1).cols.count
            (campos.get "household_id" "household_id") = 1
          · rw [consolidar_ok_eq campos dfMaster dfRev dfAgregado dfm1 hkey hagg hdm hcount] at hok
            exact ⟨dfAgregado, dfm1, hkey, rfl, rfl, hcount, (Except.ok.inj hok).symm⟩
          · unfold consolidar at hok
            rw [if_neg (not_not_intro hkey), hagg] at hok
            simp only [Except.bind] at hok
            rw [hdm] at hok
            simp only [Except.bind] at hok
            rw [if_pos hcount] at hok
            simp at hok

/-! ## Keys of the aggregated frame -/

theorem renameAgg_mem (dfRev : DF) (campos : Campos) (c : String)
    (hc : c ∈ aggNamesOf dfRev campos) :
    renameAgg (campos.get "tentativa_n" "tentativa_n") c ∈
      (["household_id", "finalizado", "ultima_revisita", "tentativas"] : List String) := by
  unfold aggNamesOf at hc
  unfold renameAgg
  set ct := campos.get "tentativa_n" "tentativa_n"
  rcases List.mem_append.mp hc with h | h
  · rcases List.mem_cons.mp h with h | h
    · subst h
      by_cases hct : "_finalizado" = ct
      · rw [if_pos hct]; simp
      · rw [if_neg hct, if_pos rfl]; simp
    · have h : c = "_submission_dt" := by simpa using h
      subst h
      by_cases hct : "_submission_dt" = ct
      · rw [if_pos hct]; simp
      · rw [if_neg hct, if_neg (by decide), if_pos rfl]; simp
  · split at h
    · have h : c = ct := by simpa using h
      subst h
      rw [if_pos rfl]
      simp
    · simp at h

/-- Every binding of an aggregated row is named by one of the four output
columns. -/
theorem processar_revisitas_row_keys (dfRev : DF) (campos : Campos) (out : DF)
    (hok : processar_revisitas dfRev campos = Except.ok out) :
    ∀ rr ∈ out.rows, ∀ kv ∈ rr,
      kv.1 ∈ (["household_id", "finalizado", "ultima_revisita", "tentativas"] : List String) := by
  intro rr hrr kv hkv
  rcases processar_revisitas_ok_inv dfRev campos out hok with ⟨_, hout⟩ | ⟨_, f, _, _, _, hout⟩
  · rw [hout] at hrr; simp at hrr
  · rw [hout] at hrr
    simp only [aggResult] at hrr
    rcases List.mem_map.mp hrr with ⟨k, _, hk⟩
    rw [← hk] at hkv
    rcases List.mem_cons.mp hkv with h | h
    · rw [h]; simp
    · rcases List.mem_map.mp h with ⟨c, hc, hkv2⟩
      rw [← hkv2]
      exact renameAgg_mem dfRev campos c hc

/-- The aggregated frame has one row per household key. -/
theorem processar_revisitas_pairwise (dfRev : DF) (campos : Campos) (out : DF)
    (hok : processar_revisitas dfRev campos = Except.ok out) :
    out.rows.Pairwise (fun a b => rowGet a "household_id" ≠ rowGet b "household_id") := by
  rcases processar_revisitas_ok_inv dfRev campos out hok with ⟨_, hout⟩ | ⟨_, f, _, _, _, hout⟩
  · rw [hout]; exact List.Pairwise.nil
  · rw [hout]
    simp only [aggResult]
    rw [List.pairwise_map]
    refine List.Pairwise.imp ?_ (List.nodup_dedup _)
    intro a b hab
    simpa using hab

/-! ## Claim C2: the statistics identity -/

theorem consRow_status (r : Row) : rowGet (consRow r) "status_consolidado" =
    Cell.s (if cellToBool (rowGet r "finalizado") then "Concluído" else "Aberto") := by
  simp [consRow]

theorem filter_status_partition (l : List Row)
    (h : ∀ r ∈ l, rowGet r "status_consolidado" = Cell.s "Aberto" ∨
      rowGet r "status_consolidado" = Cell.s "Concluído") :
    (l.filter (fun r => decide (rowGet r "status_consolidado" = Cell.s "Aberto"))).length +
      (l.filter (fun r => decide (rowGet r "status_consolidado" = Cell.s "Concluído"))).length
      = l.length := by
  induction l with
  | nil => rfl
  | cons a l ih =>
      have ihl := ih (fun r hr => h r (List.mem_cons_of_mem a hr))
      rcases h a (List.mem_cons_self a l) with ha | ha
      · rw [List.filter_cons_of_pos (by simp [ha]),
            List.filter_cons_of_neg (by simp [ha])]
        simp only [List.length_cons]
        omega
      · rw [List.filter_cons_of_neg (by simp [ha]),
            List.filter_cons_of_pos (by simp [ha])]
        simp only [List.length_cons]
        omega

theorem selectBase_rows_length (campos : Campos) (df : DF) :
    (selectBase campos df).rows.length = df.rows.length := by
  simp [selectBase]

/-- **C2 (amended).**  The statistics identity
`total_master = abertos + concluidos_revisita + primeira_completa` holds on
*every* input that produces statistics, including those whose Master rows
carry terminal-looking status codes other than `"01"`: such rows are merely
classified as pending (or resolved via a revisit), never breaking the
arithmetic. -/
theorem stats_identity (campos : Campos) (dfMaster dfRev : DF) (pend : DF) (stats : Stats)
    (hok : processar_core campos dfMaster dfRev = Except.ok (pend, stats)) :
    stats.total_master = stats.abertos + stats.concluidos_revisita + stats.primeira_completa := by
  obtain ⟨dfc, hcons, hmap⟩ := except_map_ok _ _ _ hok
  obtain ⟨dfA, dfm1, hkey, hagg, hdm, hcount, hout⟩ :=
    consolidar_ok_inv campos dfMaster dfRev dfc hcons
  have hstats : stats = ((fun dfConsolidado =>
      let pendRows0 := dfConsolidado.rows.filter
        (fun r => decide (rowGet r "status_consolidado" = Cell.s "Aberto"))
      let colsName := dfConsolidado.cols ++ ["name"]
      let pendCols := colsName ++ ["label"]
      let pendRows := pendRows0.map (fun r =>
        let r1 := ("name", Cell.s (cellStr (rowGet r "_index_sel"))) :: r
        let r2 := ("label", Cell.s (criar_label_endereco colsName r1 campos)) :: r1
        if "ultima_revisita" ∈ pendCols then
          ("ultima_revisita", fmtUltima (rowGet r2 "ultima_revisita")) :: r2
        else r2)
      let dfm2 := (removeFirstVisitComplete campos
        (match dedupMaster campos dfMaster with
         | Except.ok d => d
         | Except.error _ => dfMaster))
      ((⟨pendCols, pendRows⟩ : DF),
       { total_master := dfm2.1.rows.length + dfm2.2
         primeira_completa := dfm2.2
         abertos := pendRows0.length
         concluidos_revisita := (dfConsolidado.rows.filter
           (fun r => decide (rowGet r "status_consolidado" = Cell.s "Concluído"))).length
         total_revisitas := dfRev.rows.length : Stats })) dfc).2 :=
    (congrArg Prod.snd hmap).symm
  rw [hstats]
  simp only [hdm]
  show (removeFirstVisitComplete campos dfm1).1.rows.length +
      (removeFirstVisitComplete campos dfm1).2 = _
  have hpart : (dfc.rows.filter
        (fun r => decide (rowGet r "status_consolidado" = Cell.s "Aberto"))).length +
      (dfc.rows.filter
        (fun r => decide (rowGet r "status_consolidado" = Cell.s "Concluído"))).length
      = dfc.rows.length := by
    apply filter_status_partition
    intro r hr
    rw [hout] at hr
    rcases List.mem_map.mp hr with ⟨r0, _, hr0⟩
    rw [← hr0, consRow_status]
    by_cases hfin : cellToBool (rowGet r0 "finalizado")
    · right; rw [if_pos hfin]
    · left; rw [if_neg hfin]
  have hlen : dfc.rows.length = (removeFirstVisitComplete campos dfm1).1.rows.length := by
    rw [hout]
    show ((mergeLeft (selectBase campos (removeFirstVisitComplete campos dfm1).1)
        dfA (campos.get "household_id" "household_id")).rows.map consRow).length = _
    rw [mergeLeft_rows_of_unique _ _ _ (processar_revisitas_pairwise dfRev campos dfA hagg)]
    simp [selectBase_rows_length]
  omega

/-- A Master dataset whose deduplicated rows include a terminal-looking
status `"04"` next to a first-visit-complete `"01"`. -/
def dfMasterC2 : DF :=
  ⟨["household_id", "info_gerais/status", "_id"],
   [[("household_id", Cell.s "A"), ("info_gerais/status", Cell.s "04"), ("_id", Cell.n 1)],
    [("household_id", Cell.s "B"), ("info_gerais/status", Cell.s "01"), ("_id", Cell.n 2)]]⟩

def dfRevC2 : DF := ⟨["household_id"], []⟩

/-- The statistics the run produces on `dfMasterC2`. -/
def statsC2 : Stats := ⟨2, 1, 1, 0, 0⟩

/-- The pending frame the run produces on `dfMasterC2`. -/
def pendC2 : DF :=
  ⟨["household_id", "_index_sel", "finalizado", "ultima_revisita", "tentativas",
    "status_consolidado", "name", "label"],
   [[("ultima_revisita", Cell.na),
     ("label", Cell.s "1"),
     ("name", Cell.s "1"),
     ("status_consolidado", Cell.s "Aberto"),
     ("finalizado", Cell.b false),
     ("household_id", Cell.s "A"),
     ("info_gerais/status", Cell.s "04"),
     ("_index_sel", Cell.n 1)]]⟩

/-- **C2 counterexample.**  On a Master dataset containing a `"04"` status
row, the claim predicts a run whose statistics violate the identity; the
run in fact produces `total_master = 2`, `abertos = 1`,
`concluidos_revisita = 0`, `primeira_completa = 1`, which satisfies
`2 = 1 + 0 + 1` — the `"04"` household is simply counted as pending. -/
theorem stats_identity_cex :
    processar_core [] dfMasterC2 dfRevC2 = Except.ok (pendC2, statsC2) ∧
      (Cell.s "04") ∈ dfMasterC2.rows.map (fun r => rowGet r "info_gerais/status") ∧
      statsC2.total_master = statsC2.abertos + statsC2.concluidos_revisita +
        statsC2.primeira_completa := by
  refine ⟨by rfl, by decide, by decide⟩

/-- Witness for the amended C2 at the `dfMasterC2` run. -/
theorem stats_identity_witness :
    statsC2.total_master = statsC2.abertos + statsC2.concluidos_revisita +
      statsC2.primeira_completa :=
  stats_identity [] dfMasterC2 dfRevC2 pendC2 statsC2 (by rfl)

/-! ## Claim C3: the left join neither drops nor duplicates -/

theorem rowGet_rename (r : Row) (idxCol c : String) (h1 : c ≠ idxCol) (h2 : c ≠ "_index_sel") :
    rowGet (renameRow idxCol r) c = rowGet r c := by
  induction r with
  | nil => rfl
  | cons kv r ih =>
      rcases kv with ⟨k, v⟩
      simp only [renameRow, List.map_cons, rowGet_cons]
      rw [show renameRow idxCol r = r.map
        (fun kv => ((if kv.1 = idxCol then "_index_sel" else kv.1), kv.2)) from rfl] at ih
      by_cases hk : k = idxCol
      · rw [if_pos hk, if_neg (fun h => h2 h.symm), if_neg (fun h : k = c => h1 (h.symm.trans hk)), ih]
      · rw [if_neg hk]
        by_cases hkc : k = c
        · rw [if_pos hkc, if_pos hkc]
        · rw [if_neg hkc, if_neg hkc, ih]

theorem idxColOf_cases (df : DF) : idxColOf df = "_index" ∨ idxColOf df = "_id" := by
  unfold idxColOf
  split
  · exact Or.inl rfl
  · exact Or.inr rfl

theorem selectBase_count_facts (campos : Campos) (df : DF)
    (hcount : (selectBase campos df).cols.count (campos.get "household_id" "household_id") = 1) :
    campos.get "household_id" "household_id" ≠ idxColOf df ∧
      campos.get "household_id" "household_id" ≠ "_index_sel" := by
  set hh := campos.get "household_id" "household_id" with hhh
  set idx := idxColOf df with hidxdef
  have hidxne : idx ≠ "_index_sel" := by
    rcases idxColOf_cases df with h | h <;> rw [hidxdef, h] <;> decide
  constructor
  · intro heq
    apply absurd hcount
    have hzero : (selectBase campos df).cols.count hh = 0 := by
      rw [List.count_eq_zero]
      intro hmem
      rcases List.mem_map.mp hmem with ⟨c, _, hcc⟩
      by_cases hc : c = idx
      · rw [if_pos hc] at hcc
        exact hidxne (heq.symm.trans hcc.symm)
      · rw [if_neg hc] at hcc
        exact hc (hcc.trans heq)
    rw [hzero]
    decide
  · intro heq
    apply absurd hcount
    have hcols : (selectBase campos df).cols =
        (if hh = idx then "_index_sel" else hh) :: (if idx = idx then "_index_sel" else idx) ::
          (addressKeys.filterMap (fun campo =>
            let cc := campos.get campo ("info_gerais/" ++ campo)
            if cc ∈ df.cols then some cc else none)).map
              (fun c => if c = idx then "_index_sel" else c) := by
      simp [selectBase, colunasOf]
    rw [hcols]
    have h1 : (if hh = idx then "_index_sel" else hh) = hh := by
      by_cases hc : hh = idx
      · rw [if_pos hc, heq]
      · rw [if_neg hc]
    have h2 : (if idx = idx then "_index_sel" else idx) = hh := by
      rw [if_pos rfl, heq]
    rw [h1, h2]
    simp [List.count_cons]

theorem selectBase_get_map (campos : Campos) (df : DF)
    (hcount : (selectBase campos df).cols.count (campos.get "household_id" "household_id") = 1) :
    (selectBase campos df).rows.map
        (fun r => rowGet r (campos.get "household_id" "household_id")) =
      df.rows.map (fun r => rowGet r (campos.get "household_id" "household_id")) := by
  obtain ⟨h1, h2⟩ := selectBase_count_facts campos df hcount
  show (df.rows.map (renameRow (idxColOf df))).map _ = _
  rw [List.map_map]
  apply List.map_congr_left
  intro r _
  exact rowGet_rename r (idxColOf df) _ h1 h2

theorem matchRow_get (right : DF) (leftKey : String) (lr : Row)
    (hkeys : ∀ rr ∈ right.rows, ∀ kv ∈ rr,
      kv.1 ∈ (["household_id", "finalizado", "ultima_revisita", "tentativas"] : List String))
    (hnk : leftKey ∉ (["finalizado", "ultima_revisita", "tentativas"] : List String)) :
    rowGet (matchRow right leftKey lr) leftKey = rowGet lr leftKey := by
  unfold matchRow
  cases hf : right.rows.filter
      (fun rr => decide (rowGet rr "household_id" = rowGet lr leftKey)) with
  | nil => rfl
  | cons rr rest =>
      have hrrf : rr ∈ right.rows.filter
          (fun rr => decide (rowGet rr "household_id" = rowGet lr leftKey)) := by
        rw [hf]; exact List.mem_cons_self rr rest
      have hrrmem : rr ∈ right.rows := List.mem_of_mem_filter hrrf
      have hmatch : rowGet rr "household_id" = rowGet lr leftKey := by
        simpa using (List.mem_filter.mp hrrf).2
      cases hfind : lr.find? (fun kv => decide (kv.1 = leftKey)) with
      | some kv =>
          rw [rowGet_append_left lr rr leftKey kv hfind]
          unfold rowGet
          rw [hfind]
      | none =>
          rw [rowGet_append_right lr rr leftKey hfind]
          have hlrna : rowGet lr leftKey = Cell.na := by
            unfold rowGet; rw [hfind]
          by_cases hk : leftKey = "household_id"
          · rw [hk] at hmatch ⊢
            rw [hmatch]
          · rw [rowGet_eq_na rr leftKey ?_, hlrna]
            intro kv hkv hkk
            have hin := hkeys rr hrrmem kv hkv
            rw [hkk] at hin
            rcases (by simpa using hin : leftKey = "household_id" ∨ leftKey = "finalizado" ∨
                leftKey = "ultima_revisita" ∨ leftKey = "tentativas") with h | h | h | h
            · exact hk h
            · exact hnk (by simp [h])
            · exact hnk (by simp [h])
            · exact hnk (by simp [h])

theorem count_le_one_of_pairwise (l : List Row) (key : String)
    (h : l.Pairwise (fun a b => rowGet a key ≠ rowGet b key)) (c : Cell) :
    (l.filter (fun r => decide (rowGet r key = c))).length ≤ 1 := by
  induction l with
  | nil => simp
  | cons a l ih =>
      rcases List.pairwise_cons.mp h with ⟨ha, hl⟩
      by_cases hak : rowGet a key = c
      · rw [List.filter_cons_of_pos (by simpa using hak)]
        have : l.filter (fun r => decide (rowGet r key = c)) = [] := by
          rw [List.filter_eq_nil_iff]
          intro q hq hqk
          exact ha q hq (by rw [hak, ← (by simpa using hqk : rowGet q key = c)])
        rw [this]
        simp
      · rw [List.filter_cons_of_neg (by simpa using hak)]
        exact ih hl

theorem dedupMaster_pairwise (campos : Campos) (dfMaster dfm1 : DF)
    (hdm : dedupMaster campos dfMaster = Except.ok dfm1) :
    dfm1.rows.Pairwise (fun a b =>
      rowGet a (campos.get "household_id" "household_id") ≠
        rowGet b (campos.get "household_id" "household_id")) := by
  unfold dedupMaster at hdm
  obtain ⟨rows1, _, hg⟩ := except_map_ok _ _ _ hdm
  rw [← hg]
  exact dropDupLast_pairwise _ rows1

theorem removeFirst_sublist (campos : Campos) (df : DF) :
    List.Sublist (removeFirstVisitComplete campos df).1.rows df.rows := by
  simp only [removeFirstVisitComplete]
  split
  · exact List.filter_sublist df.rows
  · exact List.Sublist.refl df.rows

theorem consRow_get (r : Row) (c : String)
    (h1 : c ≠ "status_consolidado") (h2 : c ≠ "finalizado") :
    rowGet (consRow r) c = rowGet r c := by
  unfold consRow
  rw [rowGet_cons, rowGet_cons, if_neg (fun h => h1 h.symm), if_neg (fun h => h2 h.symm)]

/-- Core of C3: the output's household-identifier column equals that of the
surviving Master rows, and is duplicate-free. -/
theorem consolidado_keys_eq (campos : Campos) (dfMaster dfRev out dfm1 : DF)
    (hok : consolidar campos dfMaster dfRev = Except.ok out)
    (hdm : dedupMaster campos dfMaster = Except.ok dfm1)
    (hH : campos.get "household_id" "household_id" ∉
      (["finalizado", "ultima_revisita", "tentativas", "status_consolidado"] : List String)) :
    out.rows.map (fun r => rowGet r (campos.get "household_id" "household_id")) =
      (removeFirstVisitComplete campos dfm1).1.rows.map
        (fun r => rowGet r (campos.get "household_id" "household_id")) ∧
    out.rows.Pairwise (fun a b =>
      rowGet a (campos.get "household_id" "household_id") ≠
        rowGet b (campos.get "household_id" "household_id")) := by
  obtain ⟨dfA, dfm1', hkey, hagg, hdm', hcount, hout⟩ :=
    consolidar_ok_inv campos dfMaster dfRev out hok
  have hdfm : dfm1' = dfm1 := by
    rw [hdm] at hdm'
    exact (Except.ok.inj hdm').symm
  rw [hdfm] at hout hcount
  set hh := campos.get "household_id" "household_id" with hhdef
  have hsc : hh ≠ "status_consolidado" := fun h => hH (by rw [h]; decide)
  have hfin : hh ≠ "finalizado" := fun h => hH (by rw [h]; decide)
  have hnk : hh ∉ (["finalizado", "ultima_revisita", "tentativas"] : List String) := by
    intro hmem
    apply hH
    rcases (by simpa using hmem : hh = "finalizado" ∨ hh = "ultima_revisita" ∨
        hh = "tentativas") with h | h | h <;> rw [h] <;> decide
  set dfm2 := (removeFirstVisitComplete campos dfm1).1 with hdfm2
  have hmerged : (mergeLeft (selectBase campos dfm2) dfA hh).rows
      = (selectBase campos dfm2).rows.map (matchRow dfA hh) :=
    mergeLeft_rows_of_unique _ _ _ (processar_revisitas_pairwise _ _ _ hagg)
  have hkeysA := processar_revisitas_row_keys dfRev campos dfA hagg
  have hmap : out.rows.map (fun r => rowGet r hh) = dfm2.rows.map (fun r => rowGet r hh) := by
    rw [hout]
    show ((mergeLeft (selectBase campos dfm2) dfA hh).rows.map consRow).map
        (fun r => rowGet r hh) = _
    rw [hmerged, List.map_map, List.map_map]
    have hstep : ∀ r ∈ (selectBase campos dfm2).rows,
        rowGet (consRow (matchRow dfA hh r)) hh = rowGet r hh := by
      intro r _
      rw [consRow_get _ _ hsc hfin, matchRow_get dfA hh r hkeysA hnk]
    calc (selectBase campos dfm2).rows.map
          ((fun r => rowGet r hh) ∘ consRow ∘ matchRow dfA hh)
        = (selectBase campos dfm2).rows.map (fun r => rowGet r hh) :=
          List.map_congr_left (fun r hr => hstep r hr)
      _ = dfm2.rows.map (fun r => rowGet r hh) := selectBase_get_map campos dfm2 hcount
  have hpair2 : dfm2.rows.Pairwise (fun a b => rowGet a hh ≠ rowGet b hh) :=
    (dedupMaster_pairwise campos dfMaster dfm1 hdm).sublist (removeFirst_sublist campos dfm1)
  have hpairout : out.rows.Pairwise (fun a b => rowGet a hh ≠ rowGet b hh) := by
    have hpm : (dfm2.rows.map (fun r => rowGet r hh)).Pairwise (fun a b => a ≠ b) := by
      rw [List.pairwise_map]
      exact hpair2
    have hpo : (out.rows.map (fun r => rowGet r hh)).Pairwise (fun a b => a ≠ b) := by
      rw [hmap]
      exact hpm
    rw [List.pairwise_map] at hpo
    exact hpo
  exact ⟨hmap, hpairout⟩

/-- **C3.**  Each household identifier appears at most once in the
Consolidator's output, and the output's household-identifier column is, row
for row, exactly that of the Master rows that survive deduplication and
first-visit-complete removal: the left outer join neither drops nor
duplicates surviving Master rows.  The hypothesis `hH` excludes a
household-id field named after one of the join's own output columns, which
pandas would reject with a suffix collision. -/
theorem consolidado_join_exact (campos : Campos) (dfMaster dfRev out dfm1 : DF)
    (hok : consolidar campos dfMaster dfRev = Except.ok out)
    (hdm : dedupMaster campos dfMaster = Except.ok dfm1)
    (hH : campos.get "household_id" "household_id" ∉
      (["finalizado", "ultima_revisita", "tentativas", "status_consolidado"] : List String)) :
    (∀ c : Cell, (out.rows.filter (fun r => decide (rowGet r
        (campos.get "household_id" "household_id") = c))).length ≤ 1) ∧
    out.rows.map (fun r => rowGet r (campos.get "household_id" "household_id")) =
      (removeFirstVisitComplete campos dfm1).1.rows.map
        (fun r => rowGet r (campos.get "household_id" "household_id")) := by
  obtain ⟨hmap, hpair⟩ := consolidado_keys_eq campos dfMaster dfRev out dfm1 hok hdm hH
  exact ⟨count_le_one_of_pairwise out.rows _ hpair, hmap⟩

/-- The consolidated frame of the `dfMasterC2` run. -/
def outC3 : DF :=
  ⟨["household_id", "_index_sel", "finalizado", "ultima_revisita", "tentativas",
    "status_consolidado"],
   [[("status_consolidado", Cell.s "Aberto"),
     ("finalizado", Cell.b false),
     ("household_id", Cell.s "A"),
     ("info_gerais/status", Cell.s "04"),
     ("_index_sel", Cell.n 1)]]⟩

/-- Witness for C3 at the `dfMasterC2` run. -/
theorem consolidado_join_exact_witness :
    ((outC3.rows.filter (fun r => decide (rowGet r
        (Campos.get [] "household_id" "household_id") = Cell.s "A"))).length ≤ 1) ∧
    outC3.rows.map (fun r => rowGet r (Campos.get [] "household_id" "household_id")) =
      (removeFirstVisitComplete []
        ⟨["household_id", "info_gerais/status", "_id"], dfMasterC2.rows⟩).1.rows.map
          (fun r => rowGet r (Campos.get [] "household_id" "household_id")) := by
  have h := consolidado_join_exact [] dfMasterC2 dfRevC2 outC3
    ⟨["household_id", "info_gerais/status", "_id"], dfMasterC2.rows⟩
    (by rfl) (by rfl) (by decide)
  exact ⟨h.1 (Cell.s "A"), h.2⟩

/-! ## Claim C4: the two-submission scenario -/

def masterC4row1 (T1 : Nat) : Row :=
  [("household_id", Cell.s "H1"), ("info_gerais/status", Cell.s "02"),
   ("_submission_time", Cell.t T1), ("_id", Cell.n 1)]

def masterC4row2 (T2 : Nat) : Row :=
  [("household_id", Cell.s "H1"), ("info_gerais/status", Cell.s "01"),
   ("_submission_time", Cell.t T2), ("_id", Cell.n 2)]

/-- Master dataset with exactly two submissions for household `"H1"`:
status `"02"` at `T1`, then `"01"` at `T2`. -/
def masterC4 (T1 T2 : Nat) : DF :=
  ⟨["household_id", "info_gerais/status", "_submission_time", "_id"],
   [masterC4row1 T1, masterC4row2 T2]⟩

def emptyRevC4 : DF := ⟨["household_id"], []⟩

/-- The deduplicated Master frame of the scenario: only the `T2` row. -/
def dfm1C4 (T2 : Nat) : DF :=
  ⟨["household_id", "info_gerais/status", "_submission_time", "_id", "_submission_dt"],
   [("_submission_dt", Cell.t T2) :: masterC4row2 T2]⟩

/-- The consolidated frame of the scenario: no rows at all. -/
def consC4 : DF :=
  ⟨["household_id", "_index_sel", "finalizado", "ultima_revisita", "tentativas",
    "status_consolidado"], []⟩

/-- The pending frame of the scenario: no rows at all. -/
def pendC4 : DF :=
  ⟨["household_id", "_index_sel", "finalizado", "ultima_revisita", "tentativas",
    "status_consolidado", "name", "label"], []⟩

/-- **C4.**  With two Master submissions for `"H1"` at `T1 < T2` carrying
statuses `"02"` then `"01"`, deduplication keeps only the `T2` row,
`primeira_completa` is `1`, and `"H1"` appears in neither the consolidated
nor the pending output (both are empty): the household is fully accounted
for by the first-visit-complete count. -/
theorem first_visit_dedup_scenario (T1 T2 : Nat) (h : T1 < T2) :
    dedupMaster [] (masterC4 T1 T2) = Except.ok (dfm1C4 T2) ∧
    consolidar [] (masterC4 T1 T2) emptyRevC4 = Except.ok consC4 ∧
    processar_core [] (masterC4 T1 T2) emptyRevC4 =
      Except.ok (pendC4, ⟨1, 1, 0, 0, 0⟩) := by
  have hab : dtLe (("_submission_dt", Cell.t T1) :: masterC4row1 T1)
      (("_submission_dt", Cell.t T2) :: masterC4row2 T2) := by
    show cellLe (rowGet (("_submission_dt", Cell.t T1) :: masterC4row1 T1) "_submission_dt")
      (rowGet (("_submission_dt", Cell.t T2) :: masterC4row2 T2) "_submission_dt") = true
    show cellLe (Cell.t T1) (Cell.t T2) = true
    simp [cellLe]
    exact Nat.le_of_lt h
  have hsort : sortByDt [("_submission_dt", Cell.t T1) :: masterC4row1 T1,
      ("_submission_dt", Cell.t T2) :: masterC4row2 T2] =
      [("_submission_dt", Cell.t T1) :: masterC4row1 T1,
       ("_submission_dt", Cell.t T2) :: masterC4row2 T2] := by
    unfold sortByDt
    simp only [List.insertionSort, List.orderedInsert]
    rw [if_pos hab]
  have hdm : dedupMaster [] (masterC4 T1 T2) = Except.ok (dfm1C4 T2) := by
    have hshape : dedupMaster [] (masterC4 T1 T2) =
        ((addSubmissionDt (masterC4 T1 T2).rows).map sortByDt).map
          (fun rows1 => (⟨["household_id", "info_gerais/status", "_submission_time", "_id",
            "_submission_dt"], dropDupLast "household_id" rows1⟩ : DF)) := rfl
    rw [hshape,
      show addSubmissionDt (masterC4 T1 T2).rows = Except.ok
        [("_submission_dt", Cell.t T1) :: masterC4row1 T1,
         ("_submission_dt", Cell.t T2) :: masterC4row2 T2] from rfl]
    simp only [Except.map]
    rw [hsort]
    rfl
  have hagg : processar_revisitas emptyRevC4 [] = Except.ok
      ⟨["household_id", "finalizado", "ultima_revisita", "tentativas"], []⟩ := rfl
  have hkey : Campos.get [] "household_id" "household_id" ∈ (masterC4 T1 T2).cols := by
    show ("household_id" : String) ∈
      (["household_id", "info_gerais/status", "_submission_time", "_id"] : List String)
    decide
  have hcnt : List.count (Campos.get [] "household_id" "household_id")
      (selectBase [] (removeFirstVisitComplete [] (dfm1C4 T2)).1).cols = 1 := by
    show List.count "household_id" (["household_id", "_index_sel"] : List String) = 1
    decide
  have hcons0 := consolidar_ok_eq [] (masterC4 T1 T2) emptyRevC4
    ⟨["household_id", "finalizado", "ultima_revisita", "tentativas"], []⟩ (dfm1C4 T2)
    hkey hagg hdm hcnt
  have hcons : consolidar [] (masterC4 T1 T2) emptyRevC4 = Except.ok consC4 := by
    rw [hcons0]
    rfl
  refine ⟨hdm, hcons, ?_⟩
  unfold processar_core
  rw [hcons]
  simp only [Except.map]
  simp only [hdm]
  rfl

/-- Witness for C4 at the instants `0 < 1`. -/
theorem first_visit_dedup_scenario_witness :
    dedupMaster [] (masterC4 0 1) = Except.ok (dfm1C4 1) ∧
    consolidar [] (masterC4 0 1) emptyRevC4 = Except.ok consC4 ∧
    processar_core [] (masterC4 0 1) emptyRevC4 =
      Except.ok (pendC4, ⟨1, 1, 0, 0, 0⟩) :=
  first_visit_dedup_scenario 0 1 (by decide)

/-! ## Claim C10: duplicates with missing or unparseable timestamps -/

/-- A household with a parseable and an *unparseable* submission time. -/
def master10 : DF :=
  ⟨["household_id", "_submission_time", "_id"],
   [[("household_id", Cell.s "H"), ("_submission_time", Cell.t 10), ("_id", Cell.n 1)],
    [("household_id", Cell.s "H"), ("_submission_time", Cell.s "notadate"), ("_id", Cell.n 2)]]⟩

/-- **C10 counterexample.**  A duplicate Master row with an *unparseable*
submission time never reaches the sort: the elementwise parse raises and
the whole run aborts, so no row at all is kept — contrary to the claim
that such a row sorts last and is kept by `keep="last"`. -/
theorem dedup_unparseable_aborts :
    dedupMaster [] master10 = Except.error "Erro ao processar timestamp: notadate" ∧
    processar_core [] master10 ⟨["household_id"], []⟩ =
      Except.error "Erro ao processar timestamp: notadate" := by
  constructor <;> rfl

/-- **C10 (amended).**  Rows with a *missing* submission time do sort after
every row with a parseable timestamp, so for a household with at least one
missing-timestamp duplicate, the row kept by `keep="last"` has a missing
parsed timestamp — a row with the most recent parseable timestamp is never
kept.  (An *unparseable* timestamp instead aborts the run: see the
counterexample.) -/
theorem missing_timestamp_kept (campos : Campos) (dfMaster dfm1 : DF) (k : Cell)
    (hdm : dedupMaster campos dfMaster = Except.ok dfm1)
    (hcol : "_submission_time" ∈ dfMaster.cols)
    (hhh : Campos.get campos "household_id" "household_id" ≠ "_submission_dt")
    (hna : ∃ r ∈ dfMaster.rows,
      rowGet r (Campos.get campos "household_id" "household_id") = k ∧
        rowGet r "_submission_time" = Cell.na) :
    ∀ r ∈ dfm1.rows, rowGet r (Campos.get campos "household_id" "household_id") = k →
      rowGet r "_submission_dt" = Cell.na := by
  set hh := Campos.get campos "household_id" "household_id" with hhdef
  unfold dedupMaster at hdm
  obtain ⟨rows1, hinner, hg⟩ := except_map_ok _ _ _ hdm
  rw [if_pos hcol] at hinner
  obtain ⟨rows0, hadd, hsort⟩ := except_map_ok _ _ _ hinner
  have hrows0 : rows0 = dfMaster.rows.map
      (fun r => ("_submission_dt", parsedCell (rowGet r "_submission_time")) :: r) := by
    unfold addSubmissionDt at hadd
    cases hfind : dfMaster.rows.find? (fun r => !rowParseOk r) with
    | some r => rw [hfind] at hadd; simp at hadd
    | none =>
        rw [hfind] at hadd
        exact (Except.ok.inj hadd).symm
  have hrows1 : dfm1.rows = dropDupLast hh rows1 := by
    rw [← hg]
  intro r hr hk
  rw [hrows1] at hr
  obtain ⟨pre, post, hsplit, hpost⟩ := dropDupLast_split hh rows1 r hr
  obtain ⟨r0, hr0mem, hr0k, hr0na⟩ := hna
  set m : Row := ("_submission_dt", parsedCell (rowGet r0 "_submission_time")) :: r0 with hmdef
  have hmdt : rowGet m "_submission_dt" = Cell.na := by
    rw [hmdef, rowGet_cons, if_pos rfl, hr0na]
    rfl
  have hmk : rowGet m hh = k := by
    rw [hmdef, rowGet_cons, if_neg (fun heq => hhh (hhdef ▸ heq.symm))]
    exact hr0k
  have hm0 : m ∈ rows0 := by
    rw [hrows0]
    exact List.mem_map.mpr ⟨r0, hr0mem, rfl⟩
  have hm1 : m ∈ rows1 := by
    rw [← hsort]
    exact ((sortByDt_perm rows0).mem_iff).mpr hm0
  have hpair : rows1.Pairwise dtLe := by
    rw [← hsort]
    exact sortByDt_sorted rows0
  rw [hsplit] at hm1 hpair
  rcases List.mem_append.mp hm1 with hmpre | hmmid
  · -- m strictly before the kept row: sortedness forces the kept row's
    -- timestamp to be missing as well
    have hle : dtLe m r :=
      (List.pairwise_append.mp hpair).2.2 m hmpre r (List.mem_cons_self r post)
    unfold dtLe at hle
    rw [hmdt] at hle
    exact cellLe_na_left hle
  · rcases List.mem_cons.mp hmmid with hmr | hmpost
    · rw [← hmr]
      exact hmdt
    · exact absurd (hmk.trans hk.symm) (hpost m hmpost)

/-- A household with a missing-timestamp duplicate after a parseable one. -/
def master10b : DF :=
  ⟨["household_id", "_submission_time", "_id"],
   [[("household_id", Cell.s "H"), ("_submission_time", Cell.na), ("_id", Cell.n 1)],
    [("household_id", Cell.s "H"), ("_submission_time", Cell.t 10), ("_id", Cell.n 2)]]⟩

/-- The deduplicated frame of `master10b`: the kept row is the
missing-timestamp one. -/
def dfm1C10 : DF :=
  ⟨["household_id", "_submission_time", "_id", "_submission_dt"],
   [[("_submission_dt", Cell.na), ("household_id", Cell.s "H"),
     ("_submission_time", Cell.na), ("_id", Cell.n 1)]]⟩

/-- Witness for the amended C10 at `master10b`. -/
theorem missing_timestamp_kept_witness :
    rowGet [("_submission_dt", Cell.na), ("household_id", Cell.s "H"),
      ("_submission_time", Cell.na), ("_id", Cell.n 1)] "_submission_dt" = Cell.na := by
  have hdm : dedupMaster [] master10b = Except.ok dfm1C10 := by rfl
  exact missing_timestamp_kept [] master10b dfm1C10 (Cell.s "H") hdm (by decide) (by decide)
    ⟨[("household_id", Cell.s "H"), ("_submission_time", Cell.na), ("_id", Cell.n 1)],
      by decide, by decide, rfl⟩
    _ (by decide) (by decide)

/-! ## Claim C9: empty Master fetch -/

/-- A paginated fetch that returns zero submissions. -/
def emptyPages : List PageResult := [PageResult.ok [] false]

/-- The (empty) pending frame of the run with `household_id ↦ _uuid`. -/
def pendC9 : DF :=
  ⟨["_uuid", "_index_sel", "household_id", "finalizado", "ultima_revisita", "tentativas",
    "status_consolidado", "name", "label"], []⟩

/-- **C9 counterexample.**  With the household-id field configured as the
metadata column `_uuid` — one of the three columns the empty fetched frame
is given — a zero-submission Master fetch does *not* raise the schema
error: the run completes and yields (empty) statistics and an exportable
(empty) pending frame. -/
theorem empty_master_no_error_cex :
    processar_pendencias [("household_id", "_uuid")] emptyPages emptyPages =
      Except.ok (pendC9, ⟨0, 0, 0, 0, 0⟩) := by
  rfl

/-- **C9 (amended).**  Whenever the Master fetch returns zero submissions
and the configured household-id field is not one of the three metadata
columns (`_id`, `_uuid`, `_submission_time`) synthesized on the empty
frame — true of every real form field — `processar_pendencias` raises the
fatal schema error naming the field, so the run yields no statistics and
no export.  (The revisit download happens before the check and must itself
succeed for this error to be the one surfaced.) -/
theorem empty_master_schema_error (campos : Campos) (mp rp : List PageResult)
    (hempty : fetchPages [] mp = Except.ok [])
    (hrev : ∃ dfr, baixar_dados_kobo rp = Except.ok dfr)
    (hfield : Campos.get campos "household_id" "household_id" ∉
      (["_id", "_uuid", "_submission_time"] : List String)) :
    processar_pendencias campos mp rp = Except.error
      ("Campo '" ++ Campos.get campos "household_id" "household_id" ++
        "' não encontrado no formulário Master") := by
  have hbm : baixar_dados_kobo mp = Except.ok ⟨["_id", "_uuid", "_submission_time"], []⟩ := by
    unfold baixar_dados_kobo
    rw [hempty]
    rfl
  obtain ⟨dfr, hdfr⟩ := hrev
  have hnot : Campos.get campos "household_id" "household_id" ∉
      (DF.mk ["_id", "_uuid", "_submission_time"] []).cols := hfield
  have hcons : consolidar campos ⟨["_id", "_uuid", "_submission_time"], []⟩ dfr =
      Except.error ("Campo '" ++ Campos.get campos "household_id" "household_id" ++
        "' não encontrado no formulário Master") := by
    unfold consolidar
    rw [if_pos hnot]
  unfold processar_pendencias
  rw [hbm]
  simp only [Except.bind]
  rw [hdfr]
  simp only [Except.bind]
  unfold processar_core
  rw [hcons]
  rfl

/-- Witness for the amended C9: the default configuration with two empty
fetches. -/
theorem empty_master_schema_error_witness :
    processar_pendencias [] emptyPages emptyPages = Except.error
      ("Campo '" ++ Campos.get [] "household_id" "household_id" ++
        "' não encontrado no formulário Master") :=
  empty_master_schema_error [] emptyPages emptyPages (by rfl)
    ⟨⟨["_id", "_uuid", "_submission_time"], []⟩, by rfl⟩ (by decide)

/-! ## Claim C7: households without revisits are pending -/

/-- Every key of an aggregated row comes from some revisit submission. -/
theorem processar_revisitas_keys_sub (dfRev : DF) (campos : Campos) (dfA : DF)
    (hagg : processar_revisitas dfRev campos = Except.ok dfA) :
    ∀ rr ∈ dfA.rows, ∃ rvr ∈ dfRev.rows,
      rowGet rvr "household_id" = rowGet rr "household_id" := by
  intro rr hrr
  rcases processar_revisitas_ok_inv dfRev campos dfA hagg with ⟨_, hout⟩ | ⟨_, f, _, _, _, hout⟩
  · rw [hout] at hrr; simp at hrr
  · rw [hout] at hrr
    simp only [aggResult] at hrr
    rcases List.mem_map.mp hrr with ⟨k, hk, hkeq⟩
    have hrrk : rowGet rr "household_id" = k := by
      rw [← hkeq]; simp
    rw [List.mem_dedup] at hk
    rcases List.mem_map.mp hk with ⟨r2, hr2, hr2k⟩
    rcases List.mem_map.mp hr2 with ⟨r1, hr1, hr1e⟩
    rcases List.mem_map.mp hr1 with ⟨r0, hr0, hr0e⟩
    refine ⟨r0, hr0, ?_⟩
    rw [hrrk, ← hr2k, ← hr1e, ← hr0e]
    simp

/-- Keys of the bindings of a deduplicated Master row: the scratch
timestamp column or an original Master column. -/
theorem dedupMaster_rows_keys (campos : Campos) (dfMaster dfm1 : DF)
    (hWf : dfMaster.Wf)
    (hdm : dedupMaster campos dfMaster = Except.ok dfm1) :
    ∀ r ∈ dfm1.rows, ∀ kv ∈ r, kv.1 = "_submission_dt" ∨ kv.1 ∈ dfMaster.cols := by
  unfold dedupMaster at hdm
  obtain ⟨rows1, hinner, hg⟩ := except_map_ok _ _ _ hdm
  have hrows : dfm1.rows = dropDupLast (campos.get "household_id" "household_id") rows1 := by
    rw [← hg]
  have hmem1 : ∀ r ∈ rows1, ∀ kv ∈ r, kv.1 = "_submission_dt" ∨ kv.1 ∈ dfMaster.cols := by
    by_cases hcol : "_submission_time" ∈ dfMaster.cols
    · rw [if_pos hcol] at hinner
      obtain ⟨rows0, hadd, hsort⟩ := except_map_ok _ _ _ hinner
      have hrows0 : rows0 = dfMaster.rows.map
          (fun r => ("_submission_dt", parsedCell (rowGet r "_submission_time")) :: r) := by
        unfold addSubmissionDt at hadd
        cases hfind : dfMaster.rows.find? (fun r => !rowParseOk r) with
        | some r => rw [hfind] at hadd; simp at hadd
        | none => rw [hfind] at hadd; exact (Except.ok.inj hadd).symm
      intro r hr kv hkv
      have hr0 : r ∈ rows0 := by
        rw [← hsort] at hr
        exact ((sortByDt_perm rows0).mem_iff).mp hr
      rw [hrows0] at hr0
      rcases List.mem_map.mp hr0 with ⟨q, hq, hqe⟩
      rw [← hqe] at hkv
      rcases List.mem_cons.mp hkv with h | h
      · left; rw [h]
      · right; exact hWf q hq kv h
    · rw [if_neg hcol] at hinner
      have heq : rows1 = dfMaster.rows := (Except.ok.inj hinner).symm
      intro r hr kv hkv
      right
      rw [heq] at hr
      exact hWf r hr kv hkv
  intro r hr kv hkv
  rw [hrows] at hr
  exact hmem1 r ((dropDupLast_sublist _ rows1).mem hr) kv hkv

/-- Keys of the bindings of a selected base row. -/
theorem base_row_keys (campos : Campos) (dfMaster dfm1 : DF)
    (hWf : dfMaster.Wf)
    (hdm : dedupMaster campos dfMaster = Except.ok dfm1) :
    ∀ lr ∈ (selectBase campos (removeFirstVisitComplete campos dfm1).1).rows,
      ∀ kv ∈ lr, kv.1 = "_index_sel" ∨ kv.1 = "_submission_dt" ∨ kv.1 ∈ dfMaster.cols := by
  intro lr hlr kv hkv
  rcases List.mem_map.mp hlr with ⟨r, hr, hre⟩
  rw [← hre] at hkv
  unfold renameRow at hkv
  rcases List.mem_map.mp hkv with ⟨kv0, hkv0, hkv0e⟩
  have hr1 : r ∈ dfm1.rows := (removeFirst_sublist campos dfm1).mem hr
  have hkey0 := dedupMaster_rows_keys campos dfMaster dfm1 hWf hdm r hr1 kv0 hkv0
  by_cases hidx : kv0.1 = idxColOf (removeFirstVisitComplete campos dfm1).1
  · left
    rw [← hkv0e]
    simp [hidx]
  · rw [← hkv0e]
    simp only [if_neg hidx]
    right
    exact hkey0

/-- **C7.**  A consolidated household with no revisit submission is
classified pending (`finalizado = false`, `status_consolidado = "Aberto"`)
with missing attempts and missing last-revisit time; and with an empty
Revisit dataset the aggregator returns the empty four-column frame and the
Consolidator output is exactly the surviving Master set, every row
pending.  The well-formedness and name hypotheses exclude Master schemas
that collide with the join's own output column names. -/
theorem no_revisit_pending (campos : Campos) (dfMaster dfRev out dfm1 : DF)
    (hok : consolidar campos dfMaster dfRev = Except.ok out)
    (hdm : dedupMaster campos dfMaster = Except.ok dfm1)
    (hWf : dfMaster.Wf)
    (hH : campos.get "household_id" "household_id" ∉
      (["finalizado", "ultima_revisita", "tentativas", "status_consolidado"] : List String))
    (hcl1 : "finalizado" ∉ dfMaster.cols)
    (hcl2 : "ultima_revisita" ∉ dfMaster.cols)
    (hcl3 : "tentativas" ∉ dfMaster.cols) :
    (∀ orow ∈ out.rows,
      (∀ rvr ∈ dfRev.rows, rowGet rvr "household_id" ≠
          rowGet orow (campos.get "household_id" "household_id")) →
        rowGet orow "finalizado" = Cell.b false ∧
        rowGet orow "status_consolidado" = Cell.s "Aberto" ∧
        rowGet orow "tentativas" = Cell.na ∧
        rowGet orow "ultima_revisita" = Cell.na) ∧
    (dfRev.rows = [] →
      processar_revisitas dfRev campos =
        Except.ok ⟨["household_id", "finalizado", "ultima_revisita", "tentativas"], []⟩ ∧
      (∀ orow ∈ out.rows, rowGet orow "status_consolidado" = Cell.s "Aberto") ∧
      out.rows.map (fun r => rowGet r (campos.get "household_id" "household_id")) =
        (removeFirstVisitComplete campos dfm1).1.rows.map
          (fun r => rowGet r (campos.get "household_id" "household_id"))) := by
  obtain ⟨dfA, dfm1', hkey, hagg, hdm', hcount, hout⟩ :=
    consolidar_ok_inv campos dfMaster dfRev out hok
  have hdfm : dfm1' = dfm1 := by
    rw [hdm] at hdm'
    exact (Except.ok.inj hdm').symm
  rw [hdfm] at hout hcount
  set hh := campos.get "household_id" "household_id" with hhdef
  have hsc : hh ≠ "status_consolidado" := fun h => hH (by rw [h]; decide)
  have hfin : hh ≠ "finalizado" := fun h => hH (by rw [h]; decide)
  have hnk : hh ∉ (["finalizado", "ultima_revisita", "tentativas"] : List String) := by
    intro hmem
    apply hH
    rcases (by simpa using hmem : hh = "finalizado" ∨ hh = "ultima_revisita" ∨
        hh = "tentativas") with h | h | h <;> rw [h] <;> decide
  set dfm2 := (removeFirstVisitComplete campos dfm1).1 with hdfm2
  have hmerged : (mergeLeft (selectBase campos dfm2) dfA hh).rows
      = (selectBase campos dfm2).rows.map (matchRow dfA hh) :=
    mergeLeft_rows_of_unique _ _ _ (processar_revisitas_pairwise _ _ _ hagg)
  have hkeysA := processar_revisitas_row_keys dfRev campos dfA hagg
  have hbasekeys := base_row_keys campos dfMaster dfm1 hWf hdm
  have hpart1 : ∀ orow ∈ out.rows,
      (∀ rvr ∈ dfRev.rows, rowGet rvr "household_id" ≠ rowGet orow hh) →
        rowGet orow "finalizado" = Cell.b false ∧
        rowGet orow "status_consolidado" = Cell.s "Aberto" ∧
        rowGet orow "tentativas" = Cell.na ∧
        rowGet orow "ultima_revisita" = Cell.na := by
    intro orow horow hnorev
    rw [hout] at horow
    have horow2 : orow ∈ ((selectBase campos dfm2).rows.map (matchRow dfA hh)).map consRow := by
      rw [← hmerged]
      exact horow
    rcases List.mem_map.mp horow2 with ⟨mr, hmr, hmre⟩
    rcases List.mem_map.mp hmr with ⟨lr, hlr, hlre⟩
    have hkeystab : rowGet orow hh = rowGet lr hh := by
      rw [← hmre, ← hlre, consRow_get _ _ hsc hfin, matchRow_get dfA hh lr hkeysA hnk]
    have hnomatch : dfA.rows.filter
        (fun rr => decide (rowGet rr "household_id" = rowGet lr hh)) = [] := by
      rw [List.filter_eq_nil_iff]
      intro rr hrr hdec
      obtain ⟨rvr, hrvr, hrvrk⟩ := processar_revisitas_keys_sub dfRev campos dfA hagg rr hrr
      apply hnorev rvr hrvr
      rw [hrvrk, (by simpa using hdec : rowGet rr "household_id" = rowGet lr hh), hkeystab]
    have hmr_eq : mr = lr := by
      rw [← hlre]
      unfold matchRow
      rw [hnomatch]
    have hlrna : ∀ c : String, c ≠ "_index_sel" → c ≠ "_submission_dt" →
        c ∉ dfMaster.cols → rowGet lr c = Cell.na := by
      intro c h1 h2 h3
      apply rowGet_eq_na
      intro kv hkv
      rcases hbasekeys lr hlr kv hkv with h | h | h
      · rw [h]; exact fun heq => h1 heq.symm
      · rw [h]; exact fun heq => h2 heq.symm
      · intro heq
        rw [heq] at h
        exact h3 h
    have hfinna : rowGet lr "finalizado" = Cell.na :=
      hlrna "finalizado" (by decide) (by decide) hcl1
    have hultna : rowGet lr "ultima_revisita" = Cell.na :=
      hlrna "ultima_revisita" (by decide) (by decide) hcl2
    have htentna : rowGet lr "tentativas" = Cell.na :=
      hlrna "tentativas" (by decide) (by decide) hcl3
    rw [← hmre, hmr_eq]
    refine ⟨?_, ?_, ?_, ?_⟩
    · simp [consRow, hfinna, cellToBool]
    · simp [consRow, hfinna, cellToBool]
    · rw [consRow_get _ _ (by decide) (by decide)]
      exact htentna
    · rw [consRow_get _ _ (by decide) (by decide)]
      exact hultna
  refine ⟨hpart1, fun hempty => ⟨?_, ?_, ?_⟩⟩
  · unfold processar_revisitas
    rw [if_pos hempty]
  · intro orow horow
    exact (hpart1 orow horow (fun rvr hrvr => by rw [hempty] at hrvr; simp at hrvr)).2.1
  · exact (consolidado_keys_eq campos dfMaster dfRev out dfm1 hok hdm hH).1

/-- The deduplicated Master frame of the `dfMasterC2` run (no timestamp
column, so the rows pass through unchanged). -/
def dfm1C7 : DF := ⟨["household_id", "info_gerais/status", "_id"], dfMasterC2.rows⟩

/-- Witness for C7 at the `dfMasterC2` run with an empty revisit set. -/
theorem no_revisit_pending_witness :
    (rowGet [("status_consolidado", Cell.s "Aberto"),
        ("finalizado", Cell.b false),
        ("household_id", Cell.s "A"),
        ("info_gerais/status", Cell.s "04"),
        ("_index_sel", Cell.n 1)] "finalizado" = Cell.b false ∧
      rowGet [("status_consolidado", Cell.s "Aberto"),
        ("finalizado", Cell.b false),
        ("household_id", Cell.s "A"),
        ("info_gerais/status", Cell.s "04"),
        ("_index_sel", Cell.n 1)] "status_consolidado" = Cell.s "Aberto" ∧
      rowGet [("status_consolidado", Cell.s "Aberto"),
        ("finalizado", Cell.b false),
        ("household_id", Cell.s "A"),
        ("info_gerais/status", Cell.s "04"),
        ("_index_sel", Cell.n 1)] "tentativas" = Cell.na ∧
      rowGet [("status_consolidado", Cell.s "Aberto"),
        ("finalizado", Cell.b false),
        ("household_id", Cell.s "A"),
        ("info_gerais/status", Cell.s "04"),
        ("_index_sel", Cell.n 1)] "ultima_revisita" = Cell.na) ∧
    processar_revisitas dfRevC2 [] =
      Except.ok ⟨["household_id", "finalizado", "ultima_revisita", "tentativas"], []⟩ := by
  have h := no_revisit_pending [] dfMasterC2 dfRevC2 outC3 dfm1C7
    (by rfl) (by rfl) (by decide) (by decide) (by decide) (by decide) (by decide)
  exact ⟨h.1 _ (by decide) (fun rvr hrvr => absurd hrvr (List.not_mem_nil rvr)),
    (h.2 rfl).1⟩

end Kobo
